import Mathlib

/-!
Shallow embedding of the system-design-lab simulation engine:
the component catalog interface (types/components.ts), the graph
topology analyzer (GraphTraversal.ts), the metrics calculator
(MetricsCalculator.ts), the load propagator (SimulationEngine's
propagateLoad), the scale-tier resolver (ValidationContext.ts) and the
score/grade aggregation of ArchitectureValidator.validate.

JavaScript numbers are modelled as exact rationals (ℚ); `Math.round`
is modelled as `⌊x + 1/2⌋` (JS rounds half toward +∞).  The concrete
component catalog (componentDefinitions.ts) is not part of the source
snapshot, so every definition is parametric in a catalog
`List (String × ComponentDefinition)`; a small concrete catalog,
modelled from the spec's field list, is used for concrete runs.
-/

namespace SDL

/-- JS `Math.round`: half rounds toward +∞. -/
@[simp] def jsRound (x : ℚ) : ℤ := ⌊x + 1/2⌋

/-- `Math.round(x * 10000) / 10000` as used by `computeErrorRate`. -/
@[simp] def round4 (x : ℚ) : ℚ := (jsRound (x * 10000) : ℚ) / 10000

/-- Component category (types/components.ts `ComponentCategory`). -/
inductive Category where
  | clients | loadbalancing | compute | storage | messaging
  | observability | network | ai
deriving DecidableEq, Repr

/-- Catalog entry (types/components.ts `ComponentDefinition`), keeping the
fields the engine reads.  Component kinds are strings, since the engine
compares `componentType` against string lists. -/
structure ComponentDefinition where
  category : Category
  maxThroughput : ℚ
  baseLatency : ℚ
  failureRateAtCapacity : ℚ
  isHorizontallyScalable : Bool
  availabilitySLA : ℚ
  consistencyModel : String
  capAlignment : String
  costPerInstancePerMonth : ℚ
deriving DecidableEq, Repr

/-- The component catalog `COMPONENT_MAP`, as an association list. -/
abbrev Catalog := List (String × ComponentDefinition)

/-- `COMPONENT_MAP.get(kind)`. -/
@[simp] def catFind : Catalog → String → Option ComponentDefinition
  | [], _ => none
  | p :: ps, kind => if p.1 = kind then some p.2 else catFind ps kind

/-- List membership for strings (JS `Array.includes` / `Set.has`). -/
@[simp] def elemStr (x : String) : List String → Bool
  | [] => false
  | y :: ys => if x = y then true else elemStr x ys

/-- The accumulator loop behind `dedupFirst`. -/
@[simp] def dedupFirstAux (acc : List String) : List String → List String
  | [] => acc
  | x :: xs => dedupFirstAux (if elemStr x acc then acc else acc ++ [x]) xs

/-- `[...new Set(l)]`: deduplicate keeping first occurrences. -/
@[simp] def dedupFirst (l : List String) : List String :=
  dedupFirstAux [] l

/-- Drop the elements of a list that occur in `seen` (a filter by
non-membership, as the traversals do for visited sets). -/
@[simp] def filterNotMem (seen : List String) : List String → List String
  | [] => []
  | y :: ys =>
    if elemStr y seen then filterNotMem seen ys else y :: filterNotMem seen ys

/-- Node config (types/components.ts `NodeConfig`), engine-relevant fields. -/
structure NodeConfig where
  label : String
  replicas : Nat
  region : String
deriving DecidableEq, Repr

/-- types/components.ts `SystemNodeData`, engine-relevant fields. -/
structure SystemNodeData where
  componentType : String
  config : NodeConfig
  isFailed : Bool
  isAI : Bool
deriving DecidableEq, Repr

/-- A React Flow node carrying `SystemNodeData`. -/
structure GNode where
  id : String
  data : SystemNodeData
deriving DecidableEq, Repr

/-- A React Flow edge (directed `source → target`). -/
structure GEdge where
  source : String
  target : String
deriving DecidableEq, Repr

/-- `node.data.config.replicas || 1` — JS `||` turns 0 into 1. -/
@[simp] def repOr1 (n : GNode) : Nat :=
  if n.data.config.replicas = 0 then 1 else n.data.config.replicas

/-- The ids of a node list. -/
@[simp] def idsOf : List GNode → List String
  | [] => []
  | n :: rest => n.id :: idsOf rest

/-- `nodes.find((n) => n.id === nid)`. -/
@[simp] def findNode : List GNode → String → Option GNode
  | [], _ => none
  | n :: rest, nid => if n.id = nid then some n else findNode rest nid

/-- A JS `Map<string, number>` as an insertion-ordered association list. -/
abbrev QMap := List (String × ℚ)

/-- `map.get(k) || 0`. -/
@[simp] def mapGet : QMap → String → ℚ
  | [], _ => 0
  | p :: ps, k => if p.1 = k then p.2 else mapGet ps k

/-- `map.set(k, v)`: overwrite the entry in place, or append a new one.
(Keys are unique by construction, as in a JS `Map`.) -/
@[simp] def mapSet : QMap → String → ℚ → QMap
  | [], k, v => [(k, v)]
  | p :: ps, k, v => if p.1 = k then (k, v) :: ps else p :: mapSet ps k v

/- ────────────────────────────────────────────────────────────────────
   Load propagator (SimulationEngine.ts `propagateLoad`).
   ──────────────────────────────────────────────────────────────────── -/

/-- The targets of the edges leaving `x`, in edge order (the entry an
adjacency map built edge-by-edge holds for key `x`). -/
@[simp] def outTargets : List GEdge → String → List String
  | [], _ => []
  | e :: es, x =>
    if e.source = x then e.target :: outTargets es x else outTargets es x

/-- Whether `x` is the id of some node. -/
@[simp] def isNodeId : List GNode → String → Bool
  | [], _ => false
  | n :: rest, x => if n.id = x then true else isNodeId rest x

/-- Adjacency of `propagateLoad`: initialised for every node id, then each
edge whose source is a node id appends its target (edge order); lookup
of a non-node key yields nothing. -/
@[simp] def adjS (nodes : List GNode) (edges : List GEdge) (x : String) : List String :=
  if isNodeId nodes x then outTargets edges x else []

/-- `inDegree.get(n.id) || 0`: edges targeting the id (regardless of
whether the edge's source is a node). -/
@[simp] def inDeg : List GEdge → String → Nat
  | [], _ => 0
  | e :: es, x => if e.target = x then inDeg es x + 1 else inDeg es x

/-- Source nodes of `propagateLoad` (in-degree 0). -/
@[simp] def propSources (edges : List GEdge) : List GNode → List GNode
  | [] => []
  | n :: rest =>
    if inDeg edges n.id = 0 then n :: propSources edges rest
    else propSources edges rest

/-- The inner neighbor loop of `propagateLoad`:
`loadMap.set(next, (loadMap.get(next) || 0) + perNeighbor)` for each
outgoing neighbor in order. -/
@[simp] def addShares (per : ℚ) : List String → QMap → QMap
  | [], m => m
  | y :: ys, m => addShares per ys (mapSet m y (mapGet m y + per))

/-- The BFS work loop of `propagateLoad`, with explicit fuel (its
adjacency lookup `adjS nodes edges` is the map the source builds up
front).  Returns the visited list (first-visit order) and the load map,
or `none` if fuel runs out (shown impossible for the fuel chosen
below). -/
@[simp] def propAux (nodes : List GNode) (edges : List GEdge) :
    Nat → List String → List String → QMap → Option (List String × QMap)
  | _, [], visited, load => some (visited, load)
  | 0, _ :: _, _, _ => none
  | fuel + 1, x :: q, visited, load =>
    if elemStr x visited then propAux nodes edges fuel q visited load
    else
      let visited' := visited ++ [x]
      let ns := adjS nodes edges x
      if ns.isEmpty then propAux nodes edges fuel q visited' load
      else
        let per := mapGet load x / (ns.length : ℚ)
        propAux nodes edges fuel (q ++ ns) visited' (addShares per ns load)

/-- Total out-adjacency size over a list of ids. -/
@[simp] def sumAdjLens (nodes : List GNode) (edges : List GEdge) :
    List String → Nat
  | [] => 0
  | u :: us => (adjS nodes edges u).length + sumAdjLens nodes edges us

/-- Fuel sufficient for `propAux` to drain its queue: initial queue length
plus the total out-adjacency size over the distinct node ids, plus one. -/
@[simp] def propFuel (nodes : List GNode) (edges : List GEdge) : Nat :=
  (propSources edges nodes).length +
    sumAdjLens nodes edges (dedupFirst (idsOf nodes)) + 1

/-- The initial `loadMap.set(src.id, perSource)` loop of `propagateLoad`. -/
@[simp] def initLoads (per : ℚ) : List GNode → QMap → QMap
  | [], m => m
  | src :: rest, m => initLoads per rest (mapSet m src.id per)

/-- `propagateLoad` before its final fill-with-zero loop: initial even
split across sources, then the BFS loop. -/
@[simp] def propagateLoadRun (nodes : List GNode) (edges : List GEdge) (t : ℚ) :
    Option (List String × QMap) :=
  let sources := propSources edges nodes
  let per : ℚ := if sources.isEmpty then 0 else t / (sources.length : ℚ)
  propAux nodes edges (propFuel nodes edges) (idsOf sources) []
    (initLoads per sources [])

/-- Whether the map holds an entry for `k`. -/
@[simp] def mapHasKey : QMap → String → Bool
  | [], _ => false
  | p :: ps, k => if p.1 = k then true else mapHasKey ps k

/-- The final loop of `propagateLoad`: nodes the map never saw get 0. -/
@[simp] def fillZeros : List GNode → QMap → QMap
  | [], m => m
  | n :: rest, m =>
    fillZeros rest (if mapHasKey m n.id then m else m ++ [(n.id, 0)])

/-- The load map returned by `propagateLoad`. -/
@[simp] def propagateLoadMap (nodes : List GNode) (edges : List GEdge) (t : ℚ) : QMap :=
  match propagateLoadRun nodes edges t with
  | some r => fillZeros nodes r.2
  | none => []

/-- Per-node load: `propagateLoad(...).get(nid) || 0`. -/
@[simp] def propagateLoad (nodes : List GNode) (edges : List GEdge) (t : ℚ)
    (nid : String) : ℚ :=
  mapGet (propagateLoadMap nodes edges t) nid

/- ────────────────────────────────────────────────────────────────────
   Graph topology analyzer (GraphTraversal.ts).
   ──────────────────────────────────────────────────────────────────── -/

/-- `buildAdjacencyList`: built from the edges alone, in edge order —
lookup with `|| []` for absent keys. -/
@[simp] def adjG (edges : List GEdge) (x : String) : List String :=
  outTargets edges x

/-- Whether some edge targets `x` (`targets.has(x)`). -/
@[simp] def hasEdgeInto : List GEdge → String → Bool
  | [], _ => false
  | e :: es, x => if e.target = x then true else hasEdgeInto es x

/-- Whether some edge leaves `x` (`sources.has(x)`). -/
@[simp] def hasEdgeFrom : List GEdge → String → Bool
  | [], _ => false
  | e :: es, x => if e.source = x then true else hasEdgeFrom es x

/-- `findSourceNodes`: ids of nodes that no edge targets. -/
@[simp] def sourceIds (edges : List GEdge) : List GNode → List String
  | [] => []
  | n :: rest =>
    if hasEdgeInto edges n.id then sourceIds edges rest
    else n.id :: sourceIds edges rest

/-- `findSinkNodes`: ids of nodes that no edge leaves. -/
@[simp] def sinkIds (edges : List GEdge) : List GNode → List String
  | [] => []
  | n :: rest =>
    if hasEdgeFrom edges n.id then sinkIds edges rest
    else n.id :: sinkIds edges rest

/-- `getNodeLatency`: `def?.baseLatency ?? 10` — unknown kinds default
to 10 ms. -/
@[simp] def getNodeLatency (cat : Catalog) (n : GNode) : ℚ :=
  match catFind cat n.data.componentType with
  | some d => d.baseLatency
  | none => 10

mutual

/-- The DFS of `findCriticalPath` over the adjacency `adjG edges`,
threading the best (path, latency) pair; `dfsKids` is the
`for next of unvisited` loop.  The JS mutates `path`/`visited` and
restores them after each child, which is equivalent to passing the
extended copies down. -/
@[simp] def dfsCrit (cat : Catalog) (nodes : List GNode) (edges : List GEdge) :
    Nat → String → List String → ℚ → List String →
    (List String × ℚ) → (List String × ℚ)
  | 0, _, _, _, _, best => best
  | fuel + 1, nid, path, total, visited, best =>
    match findNode nodes nid with
    | none => best
    | some node =>
      let lat := total + getNodeLatency cat node
      let path' := path ++ [nid]
      let unvis := filterNotMem visited (adjG edges nid)
      if unvis.isEmpty then (if best.2 < lat then (path', lat) else best)
      else dfsKids cat nodes edges fuel unvis path' lat visited best

/-- The child loop of the DFS. -/
@[simp] def dfsKids (cat : Catalog) (nodes : List GNode) (edges : List GEdge) :
    Nat → List String → List String → ℚ → List String →
    (List String × ℚ) → (List String × ℚ)
  | _, [], _, _, _, best => best
  | fuel, next :: rest, path', lat, visited, best =>
    dfsKids cat nodes edges fuel rest path' lat visited
      (dfsCrit cat nodes edges fuel next path' lat (visited ++ [next]) best)

end

/-- Fuel for the DFS: recursion depth is bounded by the number of distinct
ids reachable (each call extends `visited` by a fresh id). -/
@[simp] def dfsFuel (nodes : List GNode) (edges : List GEdge) : Nat :=
  nodes.length + edges.length + 1

/-- The outer `for src of sources` loop of `findCriticalPath`. -/
@[simp] def dfsSources (cat : Catalog) (nodes : List GNode) (edges : List GEdge)
    (best : List String × ℚ) : List String → List String × ℚ
  | [] => best
  | src :: rest =>
    dfsSources cat nodes edges
      (dfsCrit cat nodes edges (dfsFuel nodes edges) src [] 0 [src] best)
      rest

/-- `findCriticalPath`: longest-latency source→leaf path, with the two
single-node fallbacks of the source. -/
@[simp] def findCriticalPath (cat : Catalog) (nodes : List GNode) (edges : List GEdge) :
    List String × ℚ :=
  let sources := sourceIds edges nodes
  match nodes with
  | [] => ([], 0)
  | n0 :: _ =>
    if sources.isEmpty then ([n0.id], getNodeLatency cat n0)
    else
      let best := dfsSources cat nodes edges ([], 0) sources
      if best.1.isEmpty then ([n0.id], getNodeLatency cat n0) else best

/-- The adjacency with node `nid` removed (`remainingAdj`): its own
entry dropped, and every target list filtered of it. -/
@[simp] def remAdj (edges : List GEdge) (nid : String) (x : String) : List String :=
  if x = nid then [] else filterNotMem [nid] (adjG edges x)

/-- The adjacency a BFS run walks: the full `adj` map, or
`remainingAdj` when a removed node id is given. -/
@[simp] def bfsAdj (edges : List GEdge) (removed : Option String) (x : String) :
    List String :=
  match removed with
  | none => adjG edges x
  | some nid => remAdj edges nid x

/-- The BFS reachability loop used by the SPOF structural test. -/
@[simp] def bfsAux (edges : List GEdge) (removed : Option String) :
    Nat → List String → List String → List String
  | 0, _, reach => reach
  | _ + 1, [], reach => reach
  | fuel + 1, c :: q, reach =>
    if elemStr c reach then bfsAux edges removed fuel q reach
    else
      let reach' := reach ++ [c]
      bfsAux edges removed fuel
        (q ++ filterNotMem reach' (bfsAdj edges removed c)) reach'

/-- Fuel for the BFS: one initial element plus at most one push per edge. -/
@[simp] def bfsFuel (nodes : List GNode) (edges : List GEdge) : Nat :=
  nodes.length + edges.length + 2

/-- The reachability set (as a list) from `src`. -/
@[simp] def bfsReach (nodes : List GNode) (edges : List GEdge)
    (removed : Option String) (src : String) : List String :=
  bfsAux edges removed (bfsFuel nodes edges) [src] []

/-- The sink scan inside the structural cut-vertex test: some sink other
than `nid`, unreachable without `nid` but reachable in the full graph. -/
@[simp] def sinkLost (nodes : List GNode) (edges : List GEdge) (nid : String)
    (src : String) : List String → Bool
  | [] => false
  | sink :: rest =>
    if sink = nid then sinkLost nodes edges nid src rest
    else if elemStr sink (bfsReach nodes edges (some nid) src) then
      sinkLost nodes edges nid src rest
    else if elemStr sink (bfsReach nodes edges none src) then true
    else sinkLost nodes edges nid src rest

/-- The source scan of the structural cut-vertex test. -/
@[simp] def srcDisconnects (nodes : List GNode) (edges : List GEdge) (nid : String) :
    List String → Bool
  | [] => false
  | src :: rest =>
    if src = nid then srcDisconnects nodes edges nid rest
    else if sinkLost nodes edges nid src (sinkIds edges nodes) then true
    else srcDisconnects nodes edges nid rest

/-- The structural cut-vertex test of `findSPOFs`: removing `nid`
disconnects some previously reachable source→sink pair. -/
@[simp] def disconnects (nodes : List GNode) (edges : List GEdge) (nid : String) : Bool :=
  srcDisconnects nodes edges nid (sourceIds edges nodes)

/-- `def?.category === "clients" || def?.category === "observability"`:
the SPOF rules skip clients and observability nodes (unknown kinds have
no category and are not skipped). -/
@[simp] def catSkipSPOF (cat : Catalog) (kind : String) : Bool :=
  match catFind cat kind with
  | some d =>
    match d.category with
    | Category.clients => true
    | Category.observability => true
    | _ => false
  | none => false

/-- The structural cut-vertex loop of `findSPOFs` (first rule), pushing
the ids of unreplicated, non-client, non-observability nodes whose
removal disconnects a source from a sink. -/
@[simp] def spofRule1 (cat : Catalog) (nodes : List GNode) (edges : List GEdge) :
    List GNode → List String
  | [] => []
  | node :: rest =>
    if catSkipSPOF cat node.data.componentType then spofRule1 cat nodes edges rest
    else if 1 < node.data.config.replicas then spofRule1 cat nodes edges rest
    else if disconnects nodes edges node.id then
      node.id :: spofRule1 cat nodes edges rest
    else spofRule1 cat nodes edges rest

/-- The critical-path occupancy loop of `findSPOFs` (second rule),
appending unreplicated, non-client, non-observability critical-path
nodes not already collected. -/
@[simp] def spofRule2 (cat : Catalog) (nodes : List GNode) (acc : List String) :
    List String → List String
  | [] => acc
  | nid :: rest =>
    match findNode nodes nid with
    | none => spofRule2 cat nodes acc rest
    | some node =>
      if catSkipSPOF cat node.data.componentType then spofRule2 cat nodes acc rest
      else if node.data.config.replicas ≤ 1 ∧ ¬ elemStr nid acc then
        spofRule2 cat nodes (acc ++ [nid]) rest
      else spofRule2 cat nodes acc rest

/-- `findSPOFs`: the `nodes.length <= 1` shortcut, then the structural
cut-vertex rule, then the critical-path occupancy rule, then `Set` dedup. -/
@[simp] def findSPOFs (cat : Catalog) (nodes : List GNode) (edges : List GEdge) :
    List String :=
  if nodes.length ≤ 1 then idsOf nodes
  else
    let spofs1 := spofRule1 cat nodes edges nodes
    let critPath := (findCriticalPath cat nodes edges).1
    dedupFirst (spofRule2 cat nodes spofs1 critPath)

/-- The loop of `findBottleneck`, carrying `(minThroughput, id)`;
`none` models the initial `Infinity`. -/
def bottleneckAux (cat : Catalog) (nodes : List GNode)
    (acc : Option (ℚ × String)) : List String → Option (ℚ × String)
  | [] => acc
  | nid :: rest =>
    match findNode nodes nid with
    | none => bottleneckAux cat nodes acc rest
    | some node =>
      match catFind cat node.data.componentType with
      | none => bottleneckAux cat nodes acc rest
      | some d =>
        if d.category = Category.clients then bottleneckAux cat nodes acc rest
        else
          let eff := d.maxThroughput * (repOr1 node : ℚ)
          match acc with
          | none => bottleneckAux cat nodes (some (eff, nid)) rest
          | some m =>
            if eff < m.1 then bottleneckAux cat nodes (some (eff, nid)) rest
            else bottleneckAux cat nodes acc rest

/-- `findBottleneck`: lowest effective capacity on the critical path,
excluding clients and unknown kinds. -/
def findBottleneck (cat : Catalog) (nodes : List GNode)
    (critPath : List String) : Option String :=
  (bottleneckAux cat nodes none critPath).map Prod.snd

/-- `findRedundancyGroups`: nodes grouped by component type, insertion
order preserved. -/
def findRedundancyGroups (nodes : List GNode) : List (String × List String) :=
  nodes.foldl (fun gs n =>
    let ty := n.data.componentType
    if gs.any (fun p => p.1 = ty) then
      gs.map (fun p => if p.1 = ty then (p.1, p.2 ++ [n.id]) else p)
    else gs ++ [(ty, [n.id])]) []

/-- GraphTraversal.ts `TopologyAnalysis`. -/
structure TopologyAnalysis where
  criticalPath : List String
  criticalPathLatency : ℚ
  spofNodeIds : List String
  bottleneckNodeId : Option String
  networkHops : Nat
  redundancyGroups : List (String × List String)
  hasClients : Bool
  hasStorage : Bool
  hasCaches : Bool
  hasQueues : Bool
deriving DecidableEq, Repr

/-- Category membership test used by `analyzeTopology`'s `typeCheck`. -/
def typeCheck (cat : Catalog) (nodes : List GNode) (cats : List Category) : Bool :=
  nodes.any (fun n =>
    match catFind cat n.data.componentType with
    | some d => d.category ∈ cats
    | none => false)

/-- `analyzeTopology`. -/
def analyzeTopology (cat : Catalog) (nodes : List GNode) (edges : List GEdge) :
    TopologyAnalysis :=
  if nodes.isEmpty then
    { criticalPath := [], criticalPathLatency := 0, spofNodeIds := []
      bottleneckNodeId := none, networkHops := 0, redundancyGroups := []
      hasClients := false, hasStorage := false
      hasCaches := false, hasQueues := false }
  else
    let cp := findCriticalPath cat nodes edges
    { criticalPath := cp.1
      criticalPathLatency := cp.2
      spofNodeIds := findSPOFs cat nodes edges
      bottleneckNodeId := findBottleneck cat nodes cp.1
      networkHops := cp.1.length - 1
      redundancyGroups := findRedundancyGroups nodes
      hasClients := typeCheck cat nodes [Category.clients]
      hasStorage := typeCheck cat nodes [Category.storage]
      hasCaches := nodes.any (fun n =>
        n.data.componentType ∈ ["redis-cache", "memcached"])
      hasQueues := nodes.any (fun n =>
        n.data.componentType ∈ ["message-queue", "event-stream", "pub-sub"]) }

/- ────────────────────────────────────────────────────────────────────
   Metrics calculator (MetricsCalculator.ts).
   ──────────────────────────────────────────────────────────────────── -/

/-- The min-capacity loop of `computeThroughput`: clients and unknown
kinds are skipped; `none` models the initial `Infinity`. -/
@[simp] def minCapAux (cat : Catalog) (nodes : List GNode) (mc : Option ℚ) :
    List String → Option ℚ
  | [] => mc
  | nid :: rest =>
    match findNode nodes nid with
    | none => minCapAux cat nodes mc rest
    | some node =>
      match catFind cat node.data.componentType with
      | none => minCapAux cat nodes mc rest
      | some d =>
        if d.category = Category.clients then minCapAux cat nodes mc rest
        else
          let capacity := d.maxThroughput * (repOr1 node : ℚ)
          match mc with
          | none => minCapAux cat nodes (some capacity) rest
          | some m =>
            if capacity < m then minCapAux cat nodes (some capacity) rest
            else minCapAux cat nodes (some m) rest

/-- `computeThroughput`: min of trafficLoad and the critical path's
minimum effective capacity. -/
@[simp] def computeThroughput (cat : Catalog) (nodes : List GNode)
    (topo : TopologyAnalysis) (t : ℚ) : ℚ :=
  if topo.criticalPath.isEmpty then 0
  else
    match minCapAux cat nodes none topo.criticalPath with
    | none => t
    | some m => min t m

/-- The base-latency sum of `computeLatency` over the critical path;
nodes missing from the list or the catalog contribute nothing. -/
@[simp] def latencySumAux (cat : Catalog) (nodes : List GNode) (tot : ℚ) :
    List String → ℚ
  | [] => tot
  | nid :: rest =>
    match findNode nodes nid with
    | none => latencySumAux cat nodes tot rest
    | some node =>
      match catFind cat node.data.componentType with
      | none => latencySumAux cat nodes tot rest
      | some d => latencySumAux cat nodes (tot + d.baseLatency) rest

/-- `computeLatency`: path latency + 2 ms per hop, ×0.6 with any cache,
then rounded percentile multipliers. -/
def computeLatency (cat : Catalog) (nodes : List GNode)
    (topo : TopologyAnalysis) : ℚ × ℚ × ℚ :=
  if topo.criticalPath.isEmpty then (0, 0, 0)
  else
    let base := latencySumAux cat nodes 0 topo.criticalPath +
      (topo.networkHops : ℚ) * 2
    let hasCaches := nodes.any (fun n =>
      n.data.componentType ∈ ["redis-cache", "memcached"])
    let total := if hasCaches then base * (6/10) else base
    ((jsRound total : ℚ), (jsRound (total * (14/10)) : ℚ),
      (jsRound (total * (21/10)) : ℚ))

/-- The unavailability product of `computeAvailability`: one `1 − SLA`
factor per SPOF id whose node and catalog entry resolve. -/
@[simp] def unavailAux (cat : Catalog) (nodes : List GNode) (u : ℚ) :
    List String → ℚ
  | [] => u
  | spofId :: rest =>
    match findNode nodes spofId with
    | none => unavailAux cat nodes u rest
    | some node =>
      match catFind cat node.data.componentType with
      | none => unavailAux cat nodes u rest
      | some d => unavailAux cat nodes (u * (1 - d.availabilitySLA)) rest

/-- `computeAvailability`. -/
@[simp] def computeAvailability (cat : Catalog) (nodes : List GNode)
    (topo : TopologyAnalysis) : ℚ :=
  if nodes.isEmpty then 0
  else if topo.spofNodeIds.isEmpty then 99999/100000
  else min (99999/100000) (1 - unavailAux cat nodes 1 topo.spofNodeIds)

/-- The per-node error term of `computeErrorRate`, at load ratio `ratio`. -/
@[simp] def errTerm (d : ComponentDefinition) (ratio : ℚ) : ℚ :=
  if 1 < ratio then min 1 (d.failureRateAtCapacity + (ratio - 1) * (1/2))
  else if 8/10 < ratio then d.failureRateAtCapacity * ((ratio - 8/10) / (2/10))
  else 0

/-- The running maximum of per-node error terms along the critical path
(clients and unknown kinds skipped), at load ratio
`trafficLoad / capacity`. -/
@[simp] def maxErAux (cat : Catalog) (nodes : List GNode) (t : ℚ) (m : ℚ) :
    List String → ℚ
  | [] => m
  | nid :: rest =>
    match findNode nodes nid with
    | none => maxErAux cat nodes t m rest
    | some node =>
      match catFind cat node.data.componentType with
      | none => maxErAux cat nodes t m rest
      | some d =>
        if d.category = Category.clients then maxErAux cat nodes t m rest
        else
          let capacity := d.maxThroughput * (repOr1 node : ℚ)
          let er := errTerm d (t / capacity)
          maxErAux cat nodes t (if m < er then er else m) rest

/-- The `node?.data.isFailed` scan over the critical path. -/
@[simp] def anyFailed (nodes : List GNode) : List String → Bool
  | [] => false
  | nid :: rest =>
    (match findNode nodes nid with
     | some node => node.data.isFailed
     | none => false) || anyFailed nodes rest

/-- `computeErrorRate`: the maximum error term along the critical path,
forced to 1 if a critical-path node is manually failed, otherwise
rounded to 4 decimals. -/
@[simp] def computeErrorRate (cat : Catalog) (nodes : List GNode)
    (topo : TopologyAnalysis) (t : ℚ) : ℚ :=
  if topo.criticalPath.isEmpty then 0
  else
    let maxER := maxErAux cat nodes t 0 topo.criticalPath
    if anyFailed nodes topo.criticalPath then 1 else round4 maxER

/-- `computeConsistency`: most relaxed model among storage nodes. -/
def computeConsistency (cat : Catalog) (nodes : List GNode) : String :=
  let storageNodes := nodes.filter (fun n =>
    match catFind cat n.data.componentType with
    | some d => d.category = Category.storage
    | none => false)
  if storageNodes.isEmpty then "N/A"
  else
    let models := storageNodes.map (fun n =>
      match catFind cat n.data.componentType with
      | some d => d.consistencyModel
      | none => "eventual")
    if "eventual" ∈ models then "Eventual"
    else if "causal" ∈ models then "Causal"
    else "Strong"

/-- `computeCAPState`: union of storage nodes' CAP alignments. -/
def computeCAPState (cat : Catalog) (nodes : List GNode) : String :=
  let storageNodes := nodes.filter (fun n =>
    match catFind cat n.data.componentType with
    | some d => d.category = Category.storage
    | none => false)
  if storageNodes.isEmpty then "N/A"
  else
    let aligns := dedupFirst (storageNodes.map (fun n =>
      match catFind cat n.data.componentType with
      | some d => d.capAlignment
      | none => "AP"))
    if aligns.length = 1 then aligns.headI
    else if "CP" ∈ aligns ∧ "AP" ∈ aligns then "CP + AP (mixed)"
    else String.intercalate " + " aligns

/-- `computeCacheHitRate`. -/
def computeCacheHitRate (nodes : List GNode) (topo : TopologyAnalysis) :
    Option ℚ :=
  if !topo.hasCaches then none
  else
    let cacheNodes := nodes.filter (fun n =>
      n.data.componentType ∈ ["redis-cache", "memcached"])
    let totalReplicas := cacheNodes.foldl (fun s n => s + repOr1 n) 0
    some (min (95/100) (8/10 + (totalReplicas : ℚ) * (2/100)))

/-- `computeDBReadWriteRatio`. -/
def computeDBReadWriteRatio (cat : Catalog) (nodes : List GNode) : Option ℚ :=
  let hasDB := nodes.any (fun n =>
    (match catFind cat n.data.componentType with
     | some d => d.category = Category.storage
     | none => false) &&
    decide (n.data.componentType ∉ ["redis-cache", "memcached", "object-storage"]))
  if hasDB then some (8/10) else none

/-- `computeScalabilityScore`. -/
def computeScalabilityScore (cat : Catalog) (nodes : List GNode)
    (topo : TopologyAnalysis) : ℚ :=
  if nodes.isEmpty then 0
  else
    let nonClientNodes := nodes.filter (fun n =>
      match catFind cat n.data.componentType with
      | some d => ¬ d.category = Category.clients
      | none => false)
    if nonClientNodes.isEmpty then 0
    else
      let scalableRatio :=
        ((nonClientNodes.filter (fun n =>
          match catFind cat n.data.componentType with
          | some d => d.isHorizontallyScalable
          | none => false)).length : ℚ) / (nonClientNodes.length : ℚ)
      let s1 : ℚ := 50 + scalableRatio * 20
      let s2 := if nodes.any (fun n => n.data.componentType = "load-balancer")
        then s1 + 10 else s1
      let s3 := if topo.hasCaches then s2 + 10 else s2
      let s4 := s3 - (topo.spofNodeIds.length : ℚ) * 5
      let avgReplicas :=
        ((nonClientNodes.foldl (fun s n => s + repOr1 n) 0 : Nat) : ℚ) /
          (nonClientNodes.length : ℚ)
      let s5 := if 1 < avgReplicas then s4 + min 10 ((avgReplicas - 1) * 5) else s4
      max 0 (min 100 (jsRound s5 : ℚ))

/-- The reduce loop of `computeMonthlyCost`. -/
@[simp] def costAux (cat : Catalog) (total : ℚ) : List GNode → ℚ
  | [] => total
  | node :: rest =>
    match catFind cat node.data.componentType with
    | none => costAux cat total rest
    | some d =>
      costAux cat (total + d.costPerInstancePerMonth * (repOr1 node : ℚ)) rest

/-- `computeMonthlyCost`: unknown kinds contribute nothing. -/
@[simp] def computeMonthlyCost (cat : Catalog) (nodes : List GNode) : ℚ :=
  costAux cat 0 nodes

/-- `computeQueueDepth`. -/
def computeQueueDepth (topo : TopologyAnalysis) (t : ℚ) (throughput : ℚ) :
    Option ℚ :=
  if !topo.hasQueues then none
  else some ((jsRound (max 0 (t - throughput) * (1/10)) : ℚ))

/-- types/metrics.ts `MetricSnapshot` (without the wall-clock timestamp). -/
structure MetricSnapshot where
  throughput : ℚ
  latencyP50 : ℚ
  latencyP95 : ℚ
  latencyP99 : ℚ
  availability : ℚ
  errorRate : ℚ
  networkHops : Nat
  consistencyModel : String
  cacheHitRate : Option ℚ
  dbReadWriteRatio : Option ℚ
  scalabilityScore : ℚ
  monthlyCost : ℚ
  queueDepth : Option ℚ
  capState : String
deriving DecidableEq, Repr

/-- `computeMetrics`. -/
def computeMetrics (cat : Catalog) (nodes : List GNode) (edges : List GEdge)
    (t : ℚ) : MetricSnapshot :=
  let topo := analyzeTopology cat nodes edges
  let throughput := computeThroughput cat nodes topo t
  let lat := computeLatency cat nodes topo
  { throughput := throughput
    latencyP50 := lat.1
    latencyP95 := lat.2.1
    latencyP99 := lat.2.2
    availability := computeAvailability cat nodes topo
    errorRate := computeErrorRate cat nodes topo t
    networkHops := topo.networkHops
    consistencyModel := computeConsistency cat nodes
    cacheHitRate := computeCacheHitRate nodes topo
    dbReadWriteRatio := computeDBReadWriteRatio cat nodes
    scalabilityScore := computeScalabilityScore cat nodes topo
    monthlyCost := computeMonthlyCost cat nodes
    queueDepth := computeQueueDepth topo t throughput
    capState := computeCAPState cat nodes }

/- ────────────────────────────────────────────────────────────────────
   Scale-tier resolver (ValidationContext.ts).
   ──────────────────────────────────────────────────────────────────── -/

/-- `ScaleTier`. -/
inductive ScaleTier where
  | prototype | startup | growth | scale | enterprise
deriving DecidableEq, Repr

/-- Position in `TIER_ORDER`. -/
@[simp] def tierIdx : ScaleTier → Nat
  | ScaleTier.prototype => 0
  | ScaleTier.startup => 1
  | ScaleTier.growth => 2
  | ScaleTier.scale => 3
  | ScaleTier.enterprise => 4

/-- The fold behind `maxTier`. -/
@[simp] def maxTierAux (best : ScaleTier) : List (Option ScaleTier) → ScaleTier
  | [] => best
  | some t :: rest =>
    maxTierAux (if tierIdx best < tierIdx t then t else best) rest
  | none :: rest => maxTierAux best rest

/-- `maxTier`: most demanding among the present signals. -/
@[simp] def maxTier (tiers : List (Option ScaleTier)) : ScaleTier :=
  maxTierAux ScaleTier.prototype tiers

/-- `ContextThresholds`. -/
structure ContextThresholds where
  maxAcceptableP99Ms : ℚ
  minAcceptableAvailability : ℚ
  replicasRequiredForHA : Nat
  requiresLoadBalancer : Bool
  requiresCache : Bool
  requiresObservability : Bool
  requiresGuardrails : Bool
deriving DecidableEq, Repr

/-- `TIER_THRESHOLDS`. -/
@[simp] def tierThresholds : ScaleTier → ContextThresholds
  | ScaleTier.prototype =>
    { maxAcceptableP99Ms := 2000, minAcceptableAvailability := 95/100
      replicasRequiredForHA := 1, requiresLoadBalancer := false
      requiresCache := false, requiresObservability := false
      requiresGuardrails := false }
  | ScaleTier.startup =>
    { maxAcceptableP99Ms := 1000, minAcceptableAvailability := 99/100
      replicasRequiredForHA := 1, requiresLoadBalancer := false
      requiresCache := false, requiresObservability := false
      requiresGuardrails := false }
  | ScaleTier.growth =>
    { maxAcceptableP99Ms := 500, minAcceptableAvailability := 999/1000
      replicasRequiredForHA := 2, requiresLoadBalancer := true
      requiresCache := true, requiresObservability := false
      requiresGuardrails := false }
  | ScaleTier.scale =>
    { maxAcceptableP99Ms := 200, minAcceptableAvailability := 9999/10000
      replicasRequiredForHA := 2, requiresLoadBalancer := true
      requiresCache := true, requiresObservability := true
      requiresGuardrails := true }
  | ScaleTier.enterprise =>
    { maxAcceptableP99Ms := 100, minAcceptableAvailability := 99999/100000
      replicasRequiredForHA := 3, requiresLoadBalancer := true
      requiresCache := true, requiresObservability := true
      requiresGuardrails := true }

/-- `trafficToTier`. -/
@[simp] def trafficToTier (rps : ℚ) : ScaleTier :=
  if rps ≤ 500 then ScaleTier.prototype
  else if rps ≤ 5000 then ScaleTier.startup
  else if rps ≤ 50000 then ScaleTier.growth
  else if rps ≤ 500000 then ScaleTier.scale
  else ScaleTier.enterprise

/-- The server kinds checked by the complexity classifier and the
monolith test. -/
@[simp] def serverTypes : List String :=
  ["api-server", "web-server", "microservice", "serverless-function",
   "container-pod"]

/-- The database kinds checked by the complexity classifier and the
validator's replica check. -/
@[simp] def dbTypes : List String :=
  ["postgresql", "mysql", "mongodb", "cassandra", "dynamodb"]

/-- The component kinds of a node list, in order. -/
@[simp] def kindsOf : List GNode → List String
  | [] => []
  | n :: rest => n.data.componentType :: kindsOf rest

/-- The sublist of `xs` whose elements occur in `allowed`. -/
@[simp] def filterIn (allowed : List String) : List String → List String
  | [] => []
  | x :: xs =>
    if elemStr x allowed then x :: filterIn allowed xs else filterIn allowed xs

/-- Whether any element of `xs` occurs in `allowed`. -/
@[simp] def anyIn (allowed : List String) : List String → Bool
  | [] => false
  | x :: xs => if elemStr x allowed then true else anyIn allowed xs

/-- The non-empty regions of a node list (`filter(Boolean)`). -/
@[simp] def regionsOf : List GNode → List String
  | [] => []
  | n :: rest =>
    if n.data.config.region = "" then regionsOf rest
    else n.data.config.region :: regionsOf rest

/-- `architectureComplexityTier`: weighted point score bucketed into a
tier. -/
@[simp] def architectureComplexityTier (nodes : List GNode) (edges : List GEdge) :
    ScaleTier :=
  let types := kindsOf nodes
  let serviceCount := (filterIn serverTypes types).length
  let hasMultipleServices := 3 ≤ serviceCount
  let hasServiceMesh := 5 ≤ serviceCount
  let hasMultipleDBTypes := 2 ≤ (dedupFirst (filterIn dbTypes types)).length
  let hasMessageQueue :=
    anyIn ["kafka", "message-queue", "pub-sub", "event-stream"] types
  let hasCDN := elemStr "cdn" types
  let hasMultipleRegions := 2 ≤ (dedupFirst (regionsOf nodes)).length
  let hasMLOps := anyIn
    ["training-cluster", "model-registry", "feature-store", "drift-detector"]
    types
  let hasObservabilityStack := 2 ≤ (filterIn
    ["metrics-collector", "log-aggregator", "distributed-tracer"] types).length
  let hasAdvancedAI := 2 ≤ (filterIn
    ["agent-orchestrator", "rag-pipeline", "model-router", "llm-observability"]
    types).length
  let score : Nat :=
    (if 4 ≤ nodes.length then 1 else 0) +
    (if 8 ≤ nodes.length then 1 else 0) +
    (if 14 ≤ nodes.length then 2 else 0) +
    (if 20 ≤ nodes.length then 2 else 0) +
    (if 8 ≤ edges.length then 1 else 0) +
    (if hasMultipleServices then 2 else 0) +
    (if hasServiceMesh then 2 else 0) +
    (if hasMultipleDBTypes then 1 else 0) +
    (if hasMessageQueue then 2 else 0) +
    (if hasCDN then 2 else 0) +
    (if hasMultipleRegions then 3 else 0) +
    (if hasMLOps then 3 else 0) +
    (if hasObservabilityStack then 2 else 0) +
    (if hasAdvancedAI then 2 else 0)
  if 12 ≤ score then ScaleTier.enterprise
  else if 8 ≤ score then ScaleTier.scale
  else if 5 ≤ score then ScaleTier.growth
  else if 2 ≤ score then ScaleTier.startup
  else ScaleTier.prototype

/-- `scenarioToTier`. -/
@[simp] def scenarioToTier (scenarioId : String) : ScaleTier :=
  if scenarioId = "basic-web-app" then ScaleTier.startup
  else if scenarioId = "design-twitter" then ScaleTier.enterprise
  else if scenarioId = "netflix-streaming" then ScaleTier.enterprise
  else if scenarioId = "ride-sharing" then ScaleTier.scale
  else if scenarioId = "url-shortener" then ScaleTier.growth
  else if scenarioId = "flash-sale" then ScaleTier.scale
  else if scenarioId = "distributed-database" then ScaleTier.scale
  else if scenarioId = "build-chatgpt" then ScaleTier.enterprise
  else if scenarioId = "rag-enterprise" then ScaleTier.scale
  else if scenarioId = "multi-agent" then ScaleTier.scale
  else if scenarioId = "fraud-detection" then ScaleTier.enterprise
  else if scenarioId = "scale-llm-100m" then ScaleTier.enterprise
  else ScaleTier.startup

/-- `componentMixTier`. -/
@[simp] def componentMixTier (nodes : List GNode) : ScaleTier :=
  let types := kindsOf nodes
  if anyIn ["training-cluster", "drift-detector", "ab-test-controller",
      "feature-store", "data-warehouse"] types then ScaleTier.enterprise
  else if anyIn ["kafka", "cdn", "distributed-tracer", "llm-observability",
      "model-registry", "agent-orchestrator"] types then ScaleTier.scale
  else if anyIn ["message-queue", "api-gateway", "reverse-proxy",
      "metrics-collector", "rag-pipeline", "event-stream", "pub-sub"] types then
    ScaleTier.growth
  else ScaleTier.prototype

/-- Scenario target thresholds (types/scenarios.ts, as consumed here). -/
structure ScenarioTargets where
  maxLatencyP95 : Option ℚ
  minAvailability : Option ℚ
deriving DecidableEq, Repr

/-- The slice of a `ScenarioDefinition` that the resolver reads. -/
structure ScenarioDefinition where
  id : String
  name : String
  targets : Option ScenarioTargets
deriving DecidableEq, Repr

/-- Whether any node carries the AI flag (`n.data.isAI`). -/
@[simp] def anyIsAI : List GNode → Bool
  | [] => false
  | n :: rest => if n.data.isAI then true else anyIsAI rest

/-- The nodes whose kind occurs in `kinds` (`nodesOfType`). -/
@[simp] def filterKinds (kinds : List String) : List GNode → List GNode
  | [] => []
  | n :: rest =>
    if elemStr n.data.componentType kinds then n :: filterKinds kinds rest
    else filterKinds kinds rest

/-- `ScaleTierSignals`. -/
structure ScaleTierSignals where
  trafficTier : ScaleTier
  complexityTier : ScaleTier
  componentTier : ScaleTier
  scenarioTier : Option ScaleTier
  resolvedTier : ScaleTier
deriving DecidableEq, Repr

/-- `ValidationContext` (label strings omitted). -/
structure ValidationContext where
  currentRPS : ℚ
  trafficPattern : String
  scaleTier : ScaleTier
  scaleTierSignals : ScaleTierSignals
  mode : String
  componentCount : Nat
  hasAIComponents : Bool
  isMonolith : Bool
  thresholds : ContextThresholds
deriving DecidableEq, Repr

/-- `resolveValidationContext` (the metrics argument is unused in the
source as well). -/
@[simp] def resolveValidationContext (nodes : List GNode) (edges : List GEdge)
    (_ms : MetricSnapshot) (trafficLoad : ℚ) (trafficPattern : String)
    (activeScenario : Option ScenarioDefinition) : ValidationContext :=
  let hasAI := anyIsAI nodes
  let serverNodes := filterKinds serverTypes nodes
  let dbNodes := filterKinds dbTypes nodes
  let trafficTier := trafficToTier trafficLoad
  let complexityTier := architectureComplexityTier nodes edges
  let componentTier := componentMixTier nodes
  let scenTier := activeScenario.map (fun s => scenarioToTier s.id)
  let scaleTier := maxTier
    [some trafficTier, some complexityTier, some componentTier, scenTier]
  let defaults := tierThresholds scaleTier
  let scenarioTargets := activeScenario.bind ScenarioDefinition.targets
  { currentRPS := trafficLoad
    trafficPattern := trafficPattern
    scaleTier := scaleTier
    scaleTierSignals :=
      { trafficTier := trafficTier, complexityTier := complexityTier
        componentTier := componentTier, scenarioTier := scenTier
        resolvedTier := scaleTier }
    mode := if activeScenario.isSome then "scenario" else "freeform"
    componentCount := nodes.length
    hasAIComponents := hasAI
    isMonolith := serverNodes.length ≤ 1 ∧ dbNodes.length ≤ 1
    thresholds :=
      { maxAcceptableP99Ms :=
          match scenarioTargets.bind ScenarioTargets.maxLatencyP95 with
          | some v => v
          | none => defaults.maxAcceptableP99Ms
        minAcceptableAvailability :=
          match scenarioTargets.bind ScenarioTargets.minAvailability with
          | some v => v
          | none => defaults.minAcceptableAvailability
        replicasRequiredForHA := defaults.replicasRequiredForHA
        requiresLoadBalancer := defaults.requiresLoadBalancer
        requiresCache := defaults.requiresCache
        requiresObservability := defaults.requiresObservability
        requiresGuardrails := defaults.requiresGuardrails } }

/- ────────────────────────────────────────────────────────────────────
   Architecture validator (ArchitectureValidator.ts): the
   database-replica check and the score/grade aggregation.
   ──────────────────────────────────────────────────────────────────── -/

/-- `CheckOutcome`. -/
inductive CheckOutcome where
  | pass | advisory | fail
deriving DecidableEq, Repr

/-- Whether some node has at least two configured replicas. -/
@[simp] def anyReplicated : List GNode → Bool
  | [] => false
  | n :: rest => if 2 ≤ n.data.config.replicas then true else anyReplicated rest

/-- The database-replica check of `checkReliability` (lines 132–185):
`none` when the graph has no database node, otherwise the outcome of the
pushed check (pass when a replica exists, advisory below the HA replica
threshold, fail at or above it). -/
@[simp] def dbReplicaOutcome (nodes : List GNode) (ctx : ValidationContext) :
    Option CheckOutcome :=
  let dbNodes := filterKinds dbTypes nodes
  let hasDBReplica := 2 ≤ dbNodes.length || anyReplicated dbNodes
  if dbNodes.isEmpty then none
  else if hasDBReplica then some CheckOutcome.pass
  else if ctx.thresholds.replicasRequiredForHA ≤ 1 then
    some CheckOutcome.advisory
  else some CheckOutcome.fail

/-- The fixed dimension weights of `ArchitectureValidator.validate`
(`weights[d.id] ?? 0`). -/
@[simp] def weightOf (dimId : String) : ℚ :=
  if dimId = "reliability" then 25
  else if dimId = "performance" then 20
  else if dimId = "dataIntegrity" then 15
  else if dimId = "security" then 15
  else if dimId = "observability" then 10
  else if dimId = "ai" then 15
  else 0

/-- The overall-score aggregation of `validate`: round of the weighted
sum of dimension scores over 100 (with AI) or 85 (without). -/
@[simp] def overallScoreOf (dims : List (String × ℚ)) (hasAI : Bool) : ℤ :=
  jsRound ((dims.foldl (fun acc d => acc + d.2 * weightOf d.1) 0) /
    (if hasAI then 100 else 85))

/-- Letter grades. -/
inductive Grade where
  | A | B | C | D | F
deriving DecidableEq, Repr

/-- The grade thresholds of `validate`. -/
@[simp] def gradeOf (overallScore : ℤ) : Grade :=
  if 90 ≤ overallScore then Grade.A
  else if 80 ≤ overallScore then Grade.B
  else if 70 ≤ overallScore then Grade.C
  else if 60 ≤ overallScore then Grade.D
  else Grade.F

/- ────────────────────────────────────────────────────────────────────
   Claim-side (spec-worded) definitions, for refinement comparisons.
   ──────────────────────────────────────────────────────────────────── -/

/-- The per-node error terms over a path at
`loadRatio = propagated incoming load / effective capacity`, skipping
ids that do not resolve to a node, nodes of unknown kind, and client
nodes. -/
@[simp] def errTermsProp (cat : Catalog) (nodes : List GNode) (edges : List GEdge)
    (t : ℚ) : List String → List ℚ
  | [] => []
  | nid :: rest =>
    match findNode nodes nid with
    | none => errTermsProp cat nodes edges t rest
    | some node =>
      match catFind cat node.data.componentType with
      | none => errTermsProp cat nodes edges t rest
      | some d =>
        if d.category = Category.clients then errTermsProp cat nodes edges t rest
        else
          errTerm d (propagateLoad nodes edges t nid /
              (d.maxThroughput * (repOr1 node : ℚ))) ::
            errTermsProp cat nodes edges t rest

/-- The per-node error terms over a path at
`loadRatio = trafficLoad / effective capacity`, with the same skips. -/
@[simp] def errTermsTraffic (cat : Catalog) (nodes : List GNode) (t : ℚ) :
    List String → List ℚ
  | [] => []
  | nid :: rest =>
    match findNode nodes nid with
    | none => errTermsTraffic cat nodes t rest
    | some node =>
      match catFind cat node.data.componentType with
      | none => errTermsTraffic cat nodes t rest
      | some d =>
        if d.category = Category.clients then errTermsTraffic cat nodes t rest
        else
          errTerm d (t / (d.maxThroughput * (repOr1 node : ℚ))) ::
            errTermsTraffic cat nodes t rest

/-- Maximum of a list of error terms (0 for the empty list). -/
@[simp] def listMax : List ℚ → ℚ
  | [] => 0
  | x :: xs => max x (listMax xs)

/-- Error rate as the spec sentence words it (claim C1): the maximum over
the non-client critical-path nodes of the piecewise error term at
`loadRatio = propagated incoming load / effective capacity`, forced to 1
when a critical-path node is manually failed. -/
@[simp] def errorRateClaimC1 (cat : Catalog) (nodes : List GNode) (edges : List GEdge)
    (t : ℚ) : ℚ :=
  let path := (analyzeTopology cat nodes edges).criticalPath
  if anyFailed nodes path then 1
  else listMax (errTermsProp cat nodes edges t path)

/-- Error rate as the code actually behaves (amended C1): the same
maximum with `loadRatio = trafficLoad / effective capacity`, rounded to
4 decimals, with the manual-failure override. -/
@[simp] def errorRateAmended (cat : Catalog) (nodes : List GNode) (edges : List GEdge)
    (t : ℚ) : ℚ :=
  let path := (analyzeTopology cat nodes edges).criticalPath
  if anyFailed nodes path then 1
  else round4 (listMax (errTermsTraffic cat nodes t path))

/-- SLA of the node behind a SPOF id (0 when the node or its catalog
entry is missing; the theorems using it assume both resolve). -/
@[simp] def slaOf (cat : Catalog) (nodes : List GNode) (nid : String) : ℚ :=
  match findNode nodes nid with
  | none => 0
  | some n =>
    match catFind cat n.data.componentType with
    | none => 0
    | some d => d.availabilitySLA

/-- The product of `1 − availabilitySLA` over a list of SPOF ids (the
spec's series-unavailability product). -/
@[simp] def slaProd (cat : Catalog) (nodes : List GNode) : List String → ℚ
  | [] => 1
  | nid :: rest => (1 - slaOf cat nodes nid) * slaProd cat nodes rest

/-- Occurrence count of a string in a list (how often a neighbor repeats
in an adjacency entry; used to state the even fan-out split of C8). -/
@[simp] def countStr (x : String) : List String → Nat
  | [] => 0
  | y :: ys => (if y = x then 1 else 0) + countStr x ys

/- ────────────────────────────────────────────────────────────────────
   Concrete catalog and graphs for witnesses and counterexamples.
   ──────────────────────────────────────────────────────────────────── -/

/-- Modelled from the spec: `componentDefinitions.ts` (the concrete
catalog) is not in the source snapshot, only its interface; this small
catalog is faithful to §3's Component Kind Definition field list, with a
clients kind, compute kinds, a storage kind and an observability kind. -/
@[simp] def exCatalog : Catalog :=
  [("web-client",
    { category := Category.clients, maxThroughput := 1000000
      baseLatency := 1, failureRateAtCapacity := 1/100
      isHorizontallyScalable := true, availabilitySLA := 999/1000
      consistencyModel := "strong", capAlignment := "CA"
      costPerInstancePerMonth := 0 }),
   ("web-server",
    { category := Category.compute, maxThroughput := 1000
      baseLatency := 20, failureRateAtCapacity := 1/20
      isHorizontallyScalable := true, availabilitySLA := 999/1000
      consistencyModel := "strong", capAlignment := "CA"
      costPerInstancePerMonth := 50 }),
   ("postgresql",
    { category := Category.storage, maxThroughput := 500
      baseLatency := 5, failureRateAtCapacity := 1/50
      isHorizontallyScalable := false, availabilitySLA := 9995/10000
      consistencyModel := "strong", capAlignment := "CP"
      costPerInstancePerMonth := 100 }),
   ("metrics-collector",
    { category := Category.observability, maxThroughput := 10000
      baseLatency := 2, failureRateAtCapacity := 1/100
      isHorizontallyScalable := true, availabilitySLA := 999/1000
      consistencyModel := "eventual", capAlignment := "AP"
      costPerInstancePerMonth := 20 })]

/-- Replace the replica count of every node with the given id ("add
replica", all else unchanged). -/
@[simp] def setReplicas (nodes : List GNode) (nid : String) (k : Nat) : List GNode :=
  nodes.map (fun n =>
    if n.id = nid then
      { n with data := { n.data with
          config := { n.data.config with replicas := k } } }
    else n)

/-- A node builder with default flags. -/
@[simp] def mkNode (nid : String) (kind : String) (replicas : Nat) : GNode :=
  { id := nid
    data :=
      { componentType := kind
        config := { label := nid, replicas := replicas, region := "" }
        isFailed := false, isAI := false } }

/-- C1 counterexample graph: one client fanning out to two web servers,
so each server's propagated load is half the traffic. -/
@[simp] def c1Nodes : List GNode :=
  [mkNode "A" "web-client" 1, mkNode "B1" "web-server" 1,
   mkNode "B2" "web-server" 1]

/-- Edges of the C1 counterexample graph. -/
@[simp] def c1Edges : List GEdge :=
  [{ source := "A", target := "B1" }, { source := "A", target := "B2" }]

/-- C2 graph: a single database node with one instance and no replica. -/
@[simp] def c2Nodes : List GNode := [mkNode "db" "postgresql" 1]

/-- C8/C3-witness graph: a client feeding a single web server. -/
@[simp] def chain2Nodes : List GNode :=
  [mkNode "client" "web-client" 1, mkNode "server" "web-server" 1]

/-- Edge of the two-node chain. -/
@[simp] def chain2Edges : List GEdge := [{ source := "client", target := "server" }]

/-- C8 chain graph A→B→C. -/
@[simp] def chainNodes : List GNode :=
  [mkNode "A" "web-client" 1, mkNode "B" "web-server" 1,
   mkNode "C" "postgresql" 1]

/-- Edges of the chain A→B→C. -/
@[simp] def chainEdges : List GEdge :=
  [{ source := "A", target := "B" }, { source := "B", target := "C" }]

/-- C8 fan-out graph: one source with two outgoing edges to sibling
leaves. -/
@[simp] def fanNodes : List GNode :=
  [mkNode "S" "web-client" 1, mkNode "L1" "web-server" 1,
   mkNode "L2" "web-server" 1]

/-- Edges of the fan-out graph. -/
@[simp] def fanEdges : List GEdge :=
  [{ source := "S", target := "L1" }, { source := "S", target := "L2" }]

/-- C10 graph: a merge node C reachable from the source by paths of
different lengths, then a successor E. -/
@[simp] def c10Nodes : List GNode :=
  [mkNode "A" "web-client" 1, mkNode "B1" "web-server" 1,
   mkNode "B2" "web-server" 1, mkNode "C" "web-server" 1,
   mkNode "E" "postgresql" 1]

/-- Edges of the C10 graph, in source order. -/
@[simp] def c10Edges : List GEdge :=
  [{ source := "A", target := "C" }, { source := "A", target := "B1" },
   { source := "B1", target := "B2" }, { source := "B2", target := "C" },
   { source := "C", target := "E" }]

/-- C6 counterexample graph: a single node whose kind has no catalog
entry. -/
@[simp] def c6Nodes : List GNode := [mkNode "X" "mystery-kind" 1]

/-- C5 witness graph without SPOFs: two web servers with two replicas
each. -/
@[simp] def c5aNodes : List GNode :=
  [mkNode "s1" "web-server" 2, mkNode "s2" "web-server" 2]

/- ────────────────────────────────────────────────────────────────────
   Projection lemmas (definitional), used to evaluate single fields
   without normalising whole result records.
   ──────────────────────────────────────────────────────────────────── -/

/-- A zeroed metric snapshot (used where the metrics argument is
provably irrelevant). -/
@[simp] def emptySnapshot : MetricSnapshot :=
  { throughput := 0, latencyP50 := 0, latencyP95 := 0, latencyP99 := 0
    availability := 0, errorRate := 0, networkHops := 0
    consistencyModel := "N/A", cacheHitRate := none, dbReadWriteRatio := none
    scalabilityScore := 0, monthlyCost := 0, queueDepth := none
    capState := "N/A" }

@[simp] theorem computeMetrics_errorRate (cat : Catalog) (nodes : List GNode)
    (edges : List GEdge) (t : ℚ) :
    (computeMetrics cat nodes edges t).errorRate
      = computeErrorRate cat nodes (analyzeTopology cat nodes edges) t := rfl

@[simp] theorem computeMetrics_availability (cat : Catalog) (nodes : List GNode)
    (edges : List GEdge) (t : ℚ) :
    (computeMetrics cat nodes edges t).availability
      = computeAvailability cat nodes (analyzeTopology cat nodes edges) := rfl

@[simp] theorem computeMetrics_monthlyCost (cat : Catalog) (nodes : List GNode)
    (edges : List GEdge) (t : ℚ) :
    (computeMetrics cat nodes edges t).monthlyCost
      = computeMonthlyCost cat nodes := rfl

@[simp] theorem computeMetrics_latencyP50 (cat : Catalog) (nodes : List GNode)
    (edges : List GEdge) (t : ℚ) :
    (computeMetrics cat nodes edges t).latencyP50
      = (computeLatency cat nodes (analyzeTopology cat nodes edges)).1 := rfl

@[simp] theorem computeMetrics_throughput (cat : Catalog) (nodes : List GNode)
    (edges : List GEdge) (t : ℚ) :
    (computeMetrics cat nodes edges t).throughput
      = computeThroughput cat nodes (analyzeTopology cat nodes edges) t := rfl

@[simp] theorem analyzeTopology_criticalPath (cat : Catalog) (nodes : List GNode)
    (edges : List GEdge) :
    (analyzeTopology cat nodes edges).criticalPath
      = if nodes.isEmpty then [] else (findCriticalPath cat nodes edges).1 := by
  unfold analyzeTopology; split <;> rfl

@[simp] theorem analyzeTopology_criticalPathLatency (cat : Catalog)
    (nodes : List GNode) (edges : List GEdge) :
    (analyzeTopology cat nodes edges).criticalPathLatency
      = if nodes.isEmpty then 0 else (findCriticalPath cat nodes edges).2 := by
  unfold analyzeTopology; split <;> rfl

@[simp] theorem analyzeTopology_spofNodeIds (cat : Catalog) (nodes : List GNode)
    (edges : List GEdge) :
    (analyzeTopology cat nodes edges).spofNodeIds
      = if nodes.isEmpty then [] else findSPOFs cat nodes edges := by
  unfold analyzeTopology; split <;> rfl

@[simp] theorem analyzeTopology_networkHops (cat : Catalog) (nodes : List GNode)
    (edges : List GEdge) :
    (analyzeTopology cat nodes edges).networkHops
      = if nodes.isEmpty then 0
        else (findCriticalPath cat nodes edges).1.length - 1 := by
  unfold analyzeTopology; split <;> rfl

theorem resolveValidationContext_ms (nodes : List GNode) (edges : List GEdge)
    (ms ms2 : MetricSnapshot) (t : ℚ) (pat : String)
    (sc : Option ScenarioDefinition) :
    resolveValidationContext nodes edges ms t pat sc
      = resolveValidationContext nodes edges ms2 t pat sc := rfl

/- ────────────────────────────────────────────────────────────────────
   Claim theorems: concrete counterexamples and context-sensitivity.
   ──────────────────────────────────────────────────────────────────── -/

/-- C10: on the merge graph A→C, A→B1, B1→B2, B2→C, C→E with
trafficLoad 1000, the returned load map records 1000 at C while E
receives only 500 — load arriving at C after it was dequeued and
processed is recorded but never forwarded, so load is not conserved
across such merge nodes. -/
theorem C10_merge_partial_forwarding :
    propagateLoad c10Nodes c10Edges 1000 "C" = 1000 ∧
    propagateLoad c10Nodes c10Edges 1000 "E" = 500 := by
  constructor <;>
  · simp only [propagateLoad, propagateLoadMap, propagateLoadRun, propAux,
      propFuel, propSources, sumAdjLens, fillZeros, mapHasKey, adjS, isNodeId,
      outTargets, inDeg, mapGet, mapSet, addShares, initLoads, idsOf, elemStr,
      dedupFirst, dedupFirstAux, c10Nodes, c10Edges, mkNode,
      String.reduceEq, reduceIte, reduceCtorEq, if_true, if_false, ite_true,
      ite_false, List.isEmpty_cons, List.isEmpty_nil, List.length_cons,
      List.length_nil, List.cons_append, List.nil_append]
    norm_num

/-- C1 counterexample: on the fan-out graph (client → two web servers,
trafficLoad 1000) the code's error rate is 1/20 — `computeErrorRate`
divides `trafficLoad` by the capacity — while the claimed formula over
propagated incoming load (500 per server, half of capacity) yields 0. -/
theorem C1_counterexample :
    (computeMetrics exCatalog c1Nodes c1Edges 1000).errorRate = 1/20 ∧
    errorRateClaimC1 exCatalog c1Nodes c1Edges 1000 = 0 ∧
    ¬ (computeMetrics exCatalog c1Nodes c1Edges 1000).errorRate
        = errorRateClaimC1 exCatalog c1Nodes c1Edges 1000 := by
  have hpath : (analyzeTopology exCatalog c1Nodes c1Edges).criticalPath
      = ["A", "B1"] := by
    simp only [analyzeTopology_criticalPath, findCriticalPath, dfsSources,
      dfsCrit, dfsKids, dfsFuel, sourceIds, adjG, outTargets, hasEdgeInto,
      getNodeLatency, catFind, findNode, filterNotMem, elemStr,
      exCatalog, mkNode, c1Nodes, c1Edges,
      String.reduceEq, reduceIte, reduceCtorEq, if_true, if_false, ite_true,
      ite_false, List.isEmpty_cons, List.isEmpty_nil, List.length_cons,
      List.length_nil, List.cons_append, List.nil_append]
    norm_num
  have h1 : (computeMetrics exCatalog c1Nodes c1Edges 1000).errorRate = 1/20 := by
    rw [computeMetrics_errorRate]
    simp only [computeErrorRate]
    rw [hpath]
    simp only [maxErAux, anyFailed, errTerm, round4,
      jsRound, catFind, findNode, elemStr, repOr1, exCatalog, mkNode, c1Nodes,
      String.reduceEq, reduceIte, reduceCtorEq, if_true, if_false, ite_true,
      ite_false, List.isEmpty_cons, List.isEmpty_nil, Bool.or_false,
      Bool.false_or]
    norm_num
  have h2 : errorRateClaimC1 exCatalog c1Nodes c1Edges 1000 = 0 := by
    simp only [errorRateClaimC1]
    rw [hpath]
    simp only [errTermsProp, listMax, anyFailed, errTerm, catFind, findNode,
      elemStr, repOr1,
      propagateLoad, propagateLoadMap, propagateLoadRun, propAux,
      propFuel, propSources, sumAdjLens, fillZeros, mapHasKey, adjS, isNodeId,
      outTargets, inDeg, mapGet, mapSet, addShares, initLoads, idsOf,
      dedupFirst, dedupFirstAux, exCatalog, mkNode, c1Nodes, c1Edges,
      String.reduceEq, reduceIte, reduceCtorEq, if_true, if_false, ite_true,
      ite_false, List.isEmpty_cons, List.isEmpty_nil, List.length_cons,
      List.length_nil, List.cons_append, List.nil_append, Bool.or_false,
      Bool.false_or]
    norm_num
  refine ⟨h1, h2, ?_⟩
  rw [h1, h2]
  norm_num

/-- C2: the single-database graph yields the advisory database-replica
outcome at trafficLoad 100, where the context resolves to the prototype
tier, and the fail outcome at trafficLoad 100000, where it resolves to
the scale tier. -/
theorem C2_db_replica_context_sensitivity :
    (resolveValidationContext c2Nodes []
        (computeMetrics exCatalog c2Nodes [] 100) 100 "steady" none).scaleTier
      = ScaleTier.prototype ∧
    dbReplicaOutcome c2Nodes
      (resolveValidationContext c2Nodes []
        (computeMetrics exCatalog c2Nodes [] 100) 100 "steady" none)
      = some CheckOutcome.advisory ∧
    (resolveValidationContext c2Nodes []
        (computeMetrics exCatalog c2Nodes [] 100000) 100000 "steady"
        none).scaleTier = ScaleTier.scale ∧
    dbReplicaOutcome c2Nodes
      (resolveValidationContext c2Nodes []
        (computeMetrics exCatalog c2Nodes [] 100000) 100000 "steady" none)
      = some CheckOutcome.fail := by
  rw [resolveValidationContext_ms c2Nodes []
      (computeMetrics exCatalog c2Nodes [] 100) emptySnapshot 100 "steady" none,
    resolveValidationContext_ms c2Nodes []
      (computeMetrics exCatalog c2Nodes [] 100000) emptySnapshot 100000
      "steady" none]
  refine ⟨?_, ?_, ?_, ?_⟩ <;>
  · simp only [resolveValidationContext, dbReplicaOutcome, anyReplicated,
      filterKinds, anyIsAI, maxTier, maxTierAux, tierIdx, tierThresholds,
      trafficToTier, architectureComplexityTier, componentMixTier,
      scenarioToTier, kindsOf, filterIn, anyIn, regionsOf, elemStr,
      dedupFirst, dedupFirstAux, serverTypes, dbTypes,
      c2Nodes, mkNode, Option.map_none', Option.bind_none, Option.isSome_none,
      String.reduceEq, reduceIte, reduceCtorEq, if_true, if_false, ite_true,
      ite_false, List.isEmpty_cons, List.isEmpty_nil, List.length_cons,
      List.length_nil, List.cons_append, List.nil_append]
    norm_num

/-- C3 counterexample: in a single-node graph, `findSPOFs` returns every
node id before checking replicas, so raising the node's replica count to
2 does not remove it from `singlePointOfFailureIds`. -/
theorem C3_counterexample :
    "w" ∈ (analyzeTopology exCatalog [mkNode "w" "web-server" 1] []).spofNodeIds ∧
    "w" ∈ (analyzeTopology exCatalog
        (setReplicas [mkNode "w" "web-server" 1] "w" 2) []).spofNodeIds := by
  constructor <;>
  · simp only [analyzeTopology_spofNodeIds, findSPOFs, setReplicas, idsOf,
      mkNode, List.map_cons, List.map_nil,
      String.reduceEq, reduceIte, reduceCtorEq, if_true, if_false, ite_true,
      ite_false, List.isEmpty_cons, List.isEmpty_nil, List.length_cons,
      List.length_nil, List.mem_cons, List.not_mem_nil]
    norm_num

/-- C4 counterexample: a graph consisting of a single client node lists
that client in `singlePointOfFailureIds`, via the `nodes.length <= 1`
shortcut of `findSPOFs` that skips the category filter. -/
theorem C4_counterexample :
    (catFind exCatalog "web-client").map ComponentDefinition.category
      = some Category.clients ∧
    (analyzeTopology exCatalog [mkNode "c" "web-client" 1] []).spofNodeIds
      = ["c"] := by
  constructor
  · simp only [catFind, exCatalog, String.reduceEq, reduceIte, if_true,
      if_false, ite_true, ite_false, Option.map_some']
  · simp only [analyzeTopology_spofNodeIds, findSPOFs, idsOf, mkNode,
      String.reduceEq, reduceIte, reduceCtorEq, if_true, if_false, ite_true,
      ite_false, List.isEmpty_cons, List.isEmpty_nil, List.length_cons,
      List.length_nil]
    norm_num

/-- C5 counterexample: the empty graph reports zero SPOFs, yet
`computeMetrics` returns availability 0, not 0.99999. -/
theorem C5_counterexample :
    (analyzeTopology exCatalog [] []).spofNodeIds = [] ∧
    (computeMetrics exCatalog [] [] 100).availability = 0 := by
  constructor
  · simp only [analyzeTopology_spofNodeIds, List.isEmpty_nil, if_true,
      ite_true, reduceIte]
  · rw [computeMetrics_availability]
    simp only [computeAvailability, List.isEmpty_nil, if_true, ite_true,
      reduceIte]

/-- C6 counterexample: a single node of unknown kind yields
criticalPathLatency 10, not the 0 it would contribute if skipped —
`getNodeLatency` defaults unknown kinds to 10 ms, so the critical-path
latency is not "as if the node were absent". -/
theorem C6_counterexample :
    catFind exCatalog "mystery-kind" = none ∧
    (analyzeTopology exCatalog c6Nodes []).criticalPathLatency = 10 ∧
    ¬ (analyzeTopology exCatalog c6Nodes []).criticalPathLatency
        = (analyzeTopology exCatalog [] []).criticalPathLatency := by
  have hmiss : catFind exCatalog "mystery-kind" = none := by
    simp only [catFind, exCatalog, String.reduceEq, reduceIte, if_true,
      if_false, ite_true, ite_false]
  have h10 : (analyzeTopology exCatalog c6Nodes []).criticalPathLatency = 10 := by
    simp only [analyzeTopology_criticalPathLatency, findCriticalPath,
      dfsSources, dfsCrit, dfsKids, dfsFuel, sourceIds, adjG, outTargets,
      hasEdgeInto, getNodeLatency, catFind, findNode, filterNotMem, elemStr,
      exCatalog, mkNode, c6Nodes,
      String.reduceEq, reduceIte, reduceCtorEq, if_true, if_false, ite_true,
      ite_false, List.isEmpty_cons, List.isEmpty_nil, List.length_cons,
      List.length_nil, List.cons_append, List.nil_append]
    norm_num
  have h0 : (analyzeTopology exCatalog [] []).criticalPathLatency = 0 := by
    simp only [analyzeTopology_criticalPathLatency, List.isEmpty_nil, if_true,
      ite_true, reduceIte]
  exact ⟨hmiss, h10, by rw [h10, h0]; norm_num⟩

/- ────────────────────────────────────────────────────────────────────
   Generic lemmas about the embedded list and map primitives.
   ──────────────────────────────────────────────────────────────────── -/

theorem elemStr_iff (x : String) (l : List String) : elemStr x l = true ↔ x ∈ l := by
  induction l with
  | nil => simp only [elemStr]; simp
  | cons y ys ih =>
    simp only [elemStr]
    by_cases h : x = y
    · subst h; simp
    · simp only [if_neg h, ih, List.mem_cons]
      exact (or_iff_right h).symm

theorem elemStr_false_iff (x : String) (l : List String) :
    elemStr x l = false ↔ x ∉ l := by
  rw [← elemStr_iff x l]; cases elemStr x l <;> simp

theorem mapGet_mapSet (k k' : String) (v : ℚ) :
    ∀ m : QMap, mapGet (mapSet m k v) k' = if k' = k then v else mapGet m k'
  | [] => by
    simp only [mapSet, mapGet]
    by_cases h : k = k'
    · rw [if_pos h, if_pos h.symm]
    · rw [if_neg h, if_neg (fun hh : k' = k => h hh.symm)]
  | p :: ps => by
    simp only [mapSet]
    by_cases hp : p.1 = k
    · rw [if_pos hp]
      simp only [mapGet]
      by_cases h : k = k'
      · rw [if_pos h, if_pos h.symm]
      · have hq : ¬ p.1 = k' := by rw [hp]; exact h
        rw [if_neg h, if_neg (fun hh : k' = k => h hh.symm), if_neg hq]
    · rw [if_neg hp]
      simp only [mapGet]
      rw [mapGet_mapSet k k' v ps]
      by_cases hq : p.1 = k'
      · have h : ¬ k' = k := fun hh => hp (by rw [hq, hh])
        rw [if_pos hq, if_neg h, if_pos hq]
      · rw [if_neg hq]
        by_cases h : k' = k
        · rw [if_pos h, if_pos h]
        · rw [if_neg h, if_neg h, if_neg hq]

theorem mapHasKey_mapSet (k k' : String) (v : ℚ) :
    ∀ m : QMap, mapHasKey (mapSet m k v) k' = (if k' = k then true else mapHasKey m k')
  | [] => by
    simp only [mapSet, mapHasKey]
    by_cases h : k = k'
    · rw [if_pos h, if_pos h.symm]
    · rw [if_neg h, if_neg (fun hh : k' = k => h hh.symm)]
  | p :: ps => by
    simp only [mapSet]
    by_cases hp : p.1 = k
    · rw [if_pos hp]
      simp only [mapHasKey]
      by_cases h : k = k'
      · rw [if_pos h, if_pos h.symm]
      · have hq : ¬ p.1 = k' := by rw [hp]; exact h
        rw [if_neg h, if_neg (fun hh : k' = k => h hh.symm), if_neg hq]
    · rw [if_neg hp]
      simp only [mapHasKey]
      rw [mapHasKey_mapSet k k' v ps]
      by_cases hq : p.1 = k'
      · have h : ¬ k' = k := fun hh => hp (by rw [hq, hh])
        rw [if_pos hq, if_neg h, if_pos hq]
      · rw [if_neg hq]
        by_cases h : k' = k
        · rw [if_pos h, if_pos h]
        · rw [if_neg h, if_neg h, if_neg hq]

theorem listMax_nonneg : ∀ l : List ℚ, 0 ≤ listMax l
  | [] => le_refl 0
  | x :: xs => le_trans (listMax_nonneg xs) (le_max_right x (listMax xs))

theorem ite_lt_eq_max (m er : ℚ) : (if m < er then er else m) = max m er := by
  rcases lt_or_ge m er with h | h
  · rw [if_pos h, max_eq_right h.le]
  · rw [if_neg (not_lt.mpr h), max_eq_left h]

theorem maxErAux_eq_listMax (cat : Catalog) (nodes : List GNode) (t : ℚ) :
    ∀ (path : List String) (m : ℚ), 0 ≤ m →
      maxErAux cat nodes t m path = max m (listMax (errTermsTraffic cat nodes t path))
  | [], m, hm => by
    simp only [maxErAux, errTermsTraffic, listMax]
    exact (max_eq_left hm).symm
  | nid :: rest, m, hm => by
    simp only [maxErAux, errTermsTraffic]
    cases hn : findNode nodes nid with
    | none =>
      dsimp only
      exact maxErAux_eq_listMax cat nodes t rest m hm
    | some node =>
      dsimp only
      cases hd : catFind cat node.data.componentType with
      | none =>
        dsimp only
        exact maxErAux_eq_listMax cat nodes t rest m hm
      | some d =>
        dsimp only
        by_cases hc : d.category = Category.clients
        · rw [if_pos hc, if_pos hc]
          exact maxErAux_eq_listMax cat nodes t rest m hm
        · rw [if_neg hc, if_neg hc, ite_lt_eq_max,
            maxErAux_eq_listMax cat nodes t rest _
              (le_trans hm (le_max_left _ _)),
            listMax, max_assoc]

/-- C1 amended: for every catalog, graph and traffic load, the error rate
of `computeMetrics` equals `errorRateAmended` — the maximum of the
piecewise error terms over the non-client critical-path nodes taken at
`loadRatio = trafficLoad / effective capacity` (not at the propagated
incoming load), rounded to 4 decimals, forced to 1 when a critical-path
node is manually failed. -/
theorem C1_traffic_based_error_rate (cat : Catalog) (nodes : List GNode)
    (edges : List GEdge) (t : ℚ) :
    (computeMetrics cat nodes edges t).errorRate = errorRateAmended cat nodes edges t := by
  rw [computeMetrics_errorRate]
  simp only [computeErrorRate, errorRateAmended]
  cases hp : (analyzeTopology cat nodes edges).criticalPath with
  | nil =>
    simp only [List.isEmpty_nil, if_true, anyFailed, errTermsTraffic, listMax,
      Bool.false_eq_true, if_false, round4, jsRound]
    rw [show ((0 : ℚ) * 10000 + 1/2) = 1/2 by norm_num]
    rw [show ⌊(1/2 : ℚ)⌋ = 0 from by
      rw [Int.floor_eq_zero_iff]; constructor <;> norm_num]
    norm_num
  | cons nid rest =>
    simp only [List.isEmpty_cons, Bool.false_eq_true, if_false]
    cases hf : anyFailed nodes (nid :: rest) with
    | true => simp only [if_true]
    | false =>
      simp only [Bool.false_eq_true, if_false,
        maxErAux_eq_listMax cat nodes t (nid :: rest) 0 (le_refl 0),
        max_eq_right (listMax_nonneg (errTermsTraffic cat nodes t (nid :: rest)))]

/-- C7: the overall score is the weighted average of the dimension scores
with weights 25/20/15/15/10/15 over 100 with AI and over 85 (ai dimension
omitted) without, and the grade thresholds are A ≥ 90, B ≥ 80, C ≥ 70,
D ≥ 60, F below — in particular 90 grades A and 89 grades B. -/
theorem C7_score_weights_and_grades :
    (∀ r p d s o a : ℚ,
      overallScoreOf [("reliability", r), ("performance", p),
          ("dataIntegrity", d), ("security", s), ("observability", o),
          ("ai", a)] true
        = jsRound ((r * 25 + p * 20 + d * 15 + s * 15 + o * 10 + a * 15) / 100) ∧
      overallScoreOf [("reliability", r), ("performance", p),
          ("dataIntegrity", d), ("security", s), ("observability", o)] false
        = jsRound ((r * 25 + p * 20 + d * 15 + s * 15 + o * 10) / 85)) ∧
    (∀ sc : ℤ,
      (gradeOf sc = Grade.A ↔ 90 ≤ sc) ∧
      (gradeOf sc = Grade.B ↔ 80 ≤ sc ∧ sc < 90) ∧
      (gradeOf sc = Grade.C ↔ 70 ≤ sc ∧ sc < 80) ∧
      (gradeOf sc = Grade.D ↔ 60 ≤ sc ∧ sc < 70) ∧
      (gradeOf sc = Grade.F ↔ sc < 60)) ∧
    gradeOf 90 = Grade.A ∧ gradeOf 89 = Grade.B := by
  refine ⟨?_, ?_, by norm_num, by norm_num⟩
  · intro r p d s o a
    constructor <;>
    · simp only [overallScoreOf, weightOf, List.foldl, String.reduceEq,
        reduceIte, reduceCtorEq, eq_self_iff_true, if_true, if_false,
        ite_true, ite_false]
      congr 1
      ring_nf
  · intro sc
    refine ⟨?_, ?_, ?_, ?_, ?_⟩ <;>
    · simp only [gradeOf]
      split_ifs with h1 h2 h3 h4 <;> simp_all <;> omega

/- ────────────────────────────────────────────────────────────────────
   Lemmas about `findSPOFs` (claims C3 and C4).
   ──────────────────────────────────────────────────────────────────── -/

theorem bool_eq_false {b : Bool} (h : ¬ b = true) : b = false := by
  cases b
  · rfl
  · exact absurd rfl h

theorem findNode_mem (nid : String) :
    ∀ (nodes : List GNode) (n : GNode),
      findNode nodes nid = some n → n ∈ nodes ∧ n.id = nid
  | [], n => by simp only [findNode]; intro h; cases h
  | x :: rest, n => by
    simp only [findNode]
    by_cases h : x.id = nid
    · rw [if_pos h]
      intro he
      injection he with he
      subst he
      exact ⟨List.mem_cons_self x rest, h⟩
    · rw [if_neg h]
      intro he
      rcases findNode_mem nid rest n he with ⟨hm, hid⟩
      exact ⟨List.mem_cons_of_mem x hm, hid⟩

theorem setReplicas_id_replicas (nodes : List GNode) (nid : String) (k : Nat) :
    ∀ n ∈ setReplicas nodes nid k, n.id = nid → n.data.config.replicas = k := by
  intro n hn hid
  simp only [setReplicas, List.mem_map] at hn
  rcases hn with ⟨m, hm, he⟩
  by_cases h : m.id = nid
  · rw [if_pos h] at he
    subst he
    rfl
  · rw [if_neg h] at he
    subst he
    exact absurd hid h

theorem spofRule1_mem (cat : Catalog) (nodes : List GNode) (edges : List GEdge)
    (nid : String) :
    ∀ ns : List GNode, nid ∈ spofRule1 cat nodes edges ns →
      ∃ n ∈ ns, n.id = nid ∧ catSkipSPOF cat n.data.componentType = false ∧
        n.data.config.replicas ≤ 1
  | [] => by simp only [spofRule1]; intro h; cases h
  | node :: rest => by
    simp only [spofRule1]
    have push : nid ∈ spofRule1 cat nodes edges rest →
        ∃ n ∈ node :: rest, n.id = nid ∧
          catSkipSPOF cat n.data.componentType = false ∧
          n.data.config.replicas ≤ 1 := by
      intro h
      rcases spofRule1_mem cat nodes edges nid rest h with ⟨n, hn, hrest⟩
      exact ⟨n, List.mem_cons_of_mem node hn, hrest⟩
    by_cases h1 : catSkipSPOF cat node.data.componentType = true
    · rw [if_pos h1]; exact push
    · rw [if_neg h1]
      by_cases h2 : 1 < node.data.config.replicas
      · rw [if_pos h2]; exact push
      · rw [if_neg h2]
        by_cases h3 : disconnects nodes edges node.id = true
        · rw [if_pos h3]
          intro hmem
          rcases List.mem_cons.mp hmem with he | hr
          · exact ⟨node, List.mem_cons_self node rest, he.symm,
              bool_eq_false h1, Nat.not_lt.mp h2⟩
          · exact push hr
        · rw [if_neg h3]; exact push

theorem spofRule2_mem (cat : Catalog) (nodes : List GNode) (nid : String) :
    ∀ (path : List String) (acc : List String),
      nid ∈ spofRule2 cat nodes acc path →
      nid ∈ acc ∨ ∃ n : GNode, findNode nodes nid = some n ∧
        catSkipSPOF cat n.data.componentType = false ∧
        n.data.config.replicas ≤ 1
  | [], acc => by simp only [spofRule2]; exact Or.inl
  | pid :: rest, acc => by
    simp only [spofRule2]
    cases hn : findNode nodes pid with
    | none =>
      dsimp only
      exact spofRule2_mem cat nodes nid rest acc
    | some node =>
      dsimp only
      by_cases h1 : catSkipSPOF cat node.data.componentType = true
      · rw [if_pos h1]
        exact spofRule2_mem cat nodes nid rest acc
      · rw [if_neg h1]
        by_cases h2 : node.data.config.replicas ≤ 1 ∧ ¬ elemStr pid acc = true
        · rw [if_pos h2]
          intro hmem
          rcases spofRule2_mem cat nodes nid rest (acc ++ [pid]) hmem with hin | hex
          · rcases List.mem_append.mp hin with hl | hr
            · exact Or.inl hl
            · have he : nid = pid := by simpa using hr
              subst he
              exact Or.inr ⟨node, hn, bool_eq_false h1, h2.1⟩
          · exact Or.inr hex
        · rw [if_neg h2]
          exact spofRule2_mem cat nodes nid rest acc

theorem mem_dedupFirstAux (x : String) :
    ∀ (l acc : List String), x ∈ dedupFirstAux acc l ↔ x ∈ acc ∨ x ∈ l
  | [], acc => by simp only [dedupFirstAux]; simp
  | y :: ys, acc => by
    simp only [dedupFirstAux]
    by_cases h : elemStr y acc = true
    · rw [if_pos h, mem_dedupFirstAux x ys acc]
      constructor
      · rintro (ha | hy)
        · exact Or.inl ha
        · exact Or.inr (List.mem_cons_of_mem y hy)
      · rintro (ha | hy)
        · exact Or.inl ha
        · rcases List.mem_cons.mp hy with he | hy'
          · subst he
            exact Or.inl ((elemStr_iff x acc).mp h)
          · exact Or.inr hy'
    · rw [if_neg h, mem_dedupFirstAux x ys (acc ++ [y])]
      simp only [List.mem_append, List.mem_cons, List.not_mem_nil, or_false]
      tauto

theorem mem_dedupFirst (x : String) (l : List String) :
    x ∈ dedupFirst l ↔ x ∈ l := by
  rw [dedupFirst, mem_dedupFirstAux x l []]
  simp

theorem length_le_one_of_isEmpty_ne (nodes : List GNode) (h : 2 ≤ nodes.length) :
    ¬ nodes.isEmpty = true := by
  cases nodes with
  | nil => simp at h
  | cons a l => simp

/-- C3 amended: as soon as the graph has at least two nodes, raising a
listed SPOF node's replica count to 2 (all else equal) removes it from
`singlePointOfFailureIds` — both SPOF rules skip nodes with more than one
replica, and only the single-node shortcut of `findSPOFs` (the subject of
the counterexample) escapes them. -/
theorem C3_add_replica_clears_spof (cat : Catalog) (nodes : List GNode)
    (edges : List GEdge) (nid : String) (h2 : 2 ≤ nodes.length)
    (hs : nid ∈ (analyzeTopology cat nodes edges).spofNodeIds) :
    nid ∉ (analyzeTopology cat (setReplicas nodes nid 2) edges).spofNodeIds := by
  intro hmem
  have hlen : (setReplicas nodes nid 2).length = nodes.length := by
    simp only [setReplicas, List.length_map]
  rw [analyzeTopology_spofNodeIds,
    if_neg (length_le_one_of_isEmpty_ne _ (by omega))] at hmem
  simp only [findSPOFs] at hmem
  rw [if_neg (by omega : ¬ (setReplicas nodes nid 2).length ≤ 1)] at hmem
  rw [mem_dedupFirst] at hmem
  rcases spofRule2_mem cat _ nid _ _ hmem with hin | ⟨n, hfind, _, hrep⟩
  · rcases spofRule1_mem cat _ edges nid _ hin with ⟨n, hn, hid, _, hrep⟩
    have := setReplicas_id_replicas nodes nid 2 n hn hid
    omega
  · rcases findNode_mem nid _ n hfind with ⟨hn, hid⟩
    have := setReplicas_id_replicas nodes nid 2 n hn hid
    omega

/-- Witness for C3: in the two-node chain client→server, "server" is a
SPOF, and doubling its replicas removes it from the SPOF list. -/
theorem C3_add_replica_clears_spof_witness :
    2 ≤ chain2Nodes.length ∧
    "server" ∈ (analyzeTopology exCatalog chain2Nodes chain2Edges).spofNodeIds ∧
    "server" ∉ (analyzeTopology exCatalog
        (setReplicas chain2Nodes "server" 2) chain2Edges).spofNodeIds := by
  have h2 : 2 ≤ chain2Nodes.length := by norm_num
  have hs : "server" ∈ (analyzeTopology exCatalog chain2Nodes chain2Edges).spofNodeIds := by
    simp only [analyzeTopology_spofNodeIds, findSPOFs, spofRule1, spofRule2,
      catSkipSPOF, disconnects, srcDisconnects, sinkLost, bfsReach, bfsAux,
      bfsFuel, bfsAdj, remAdj, sourceIds, sinkIds, hasEdgeInto, hasEdgeFrom,
      adjG, outTargets, findCriticalPath, dfsSources, dfsCrit, dfsKids,
      dfsFuel, getNodeLatency, catFind, findNode, filterNotMem, elemStr,
      dedupFirst, dedupFirstAux, idsOf, exCatalog, mkNode, chain2Nodes,
      chain2Edges, String.reduceEq, reduceIte, reduceCtorEq, if_true,
      if_false, ite_true, ite_false, List.isEmpty_cons, List.isEmpty_nil,
      List.length_cons, List.length_nil, List.cons_append, List.nil_append,
      List.mem_cons, List.not_mem_nil]
    norm_num
  exact ⟨h2, hs,
    C3_add_replica_clears_spof exCatalog chain2Nodes chain2Edges "server" h2 hs⟩

/-- C4 amended: as soon as the graph has at least two nodes, a node all of
whose entries have a clients- or observability-category kind is never in
`singlePointOfFailureIds`; the single-node shortcut (subject of the
counterexample) is the only escape. -/
theorem C4_skip_categories_not_spof (cat : Catalog) (nodes : List GNode)
    (edges : List GEdge) (nid : String) (h2 : 2 ≤ nodes.length)
    (hcat : ∀ n ∈ nodes, n.id = nid →
      catSkipSPOF cat n.data.componentType = true) :
    nid ∉ (analyzeTopology cat nodes edges).spofNodeIds := by
  intro hmem
  rw [analyzeTopology_spofNodeIds,
    if_neg (length_le_one_of_isEmpty_ne nodes h2)] at hmem
  simp only [findSPOFs] at hmem
  rw [if_neg (by omega : ¬ nodes.length ≤ 1)] at hmem
  rw [mem_dedupFirst] at hmem
  rcases spofRule2_mem cat nodes nid _ _ hmem with hin | ⟨n, hfind, hskip, _⟩
  · rcases spofRule1_mem cat nodes edges nid _ hin with ⟨n, hn, hid, hskip, _⟩
    rw [hcat n hn hid] at hskip
    cases hskip
  · rcases findNode_mem nid nodes n hfind with ⟨hn, hid⟩
    rw [hcat n hn hid] at hskip
    cases hskip

/-- Witness for C4: in the client→two-servers graph, the client "A" is
not a SPOF. -/
theorem C4_skip_categories_not_spof_witness :
    2 ≤ c1Nodes.length ∧
    "A" ∉ (analyzeTopology exCatalog c1Nodes c1Edges).spofNodeIds := by
  have h2 : 2 ≤ c1Nodes.length := by norm_num
  have hcat : ∀ n ∈ c1Nodes, n.id = "A" →
      catSkipSPOF exCatalog n.data.componentType = true := by
    intro n hn hid
    simp only [c1Nodes, mkNode, List.mem_cons, List.not_mem_nil, or_false] at hn
    rcases hn with h | h | h <;> subst h
    · simp only [catSkipSPOF, catFind, exCatalog, String.reduceEq, reduceIte,
        if_true, if_false, ite_true, ite_false]
    · exact absurd hid (by decide)
    · exact absurd hid (by decide)
  exact ⟨h2, C4_skip_categories_not_spof exCatalog c1Nodes c1Edges "A" h2 hcat⟩

/- ────────────────────────────────────────────────────────────────────
   Lemmas about `computeAvailability` (claim C5).
   ──────────────────────────────────────────────────────────────────── -/

theorem catFind_mem (k : String) (d : ComponentDefinition) :
    ∀ cat : Catalog, catFind cat k = some d → ∃ p ∈ cat, p.2 = d
  | [] => by simp only [catFind]; intro h; cases h
  | q :: rest => by
    simp only [catFind]
    by_cases h : q.1 = k
    · rw [if_pos h]
      intro he
      injection he with he
      exact ⟨q, List.mem_cons_self q rest, he⟩
    · rw [if_neg h]
      intro he
      rcases catFind_mem k d rest he with ⟨p, hp, he2⟩
      exact ⟨p, List.mem_cons_of_mem q hp, he2⟩

theorem slaOf_bounds (cat : Catalog) (nodes : List GNode) (nid : String)
    (hsla : ∀ p ∈ cat, 0 ≤ p.2.availabilitySLA ∧ p.2.availabilitySLA ≤ 1) :
    0 ≤ slaOf cat nodes nid ∧ slaOf cat nodes nid ≤ 1 := by
  simp only [slaOf]
  cases hn : findNode nodes nid with
  | none => norm_num
  | some n =>
    dsimp only
    cases hd : catFind cat n.data.componentType with
    | none => norm_num
    | some d =>
      dsimp only
      rcases catFind_mem _ d cat hd with ⟨p, hp, he⟩
      have hb := hsla p hp
      rw [he] at hb
      exact hb

theorem slaProd_bounds (cat : Catalog) (nodes : List GNode)
    (hsla : ∀ p ∈ cat, 0 ≤ p.2.availabilitySLA ∧ p.2.availabilitySLA ≤ 1) :
    ∀ ids : List String, 0 ≤ slaProd cat nodes ids ∧ slaProd cat nodes ids ≤ 1
  | [] => by simp only [slaProd]; norm_num
  | nid :: rest => by
    simp only [slaProd]
    rcases slaProd_bounds cat nodes hsla rest with ⟨h0, h1⟩
    rcases slaOf_bounds cat nodes nid hsla with ⟨s0, s1⟩
    constructor
    · exact mul_nonneg (by linarith) h0
    · exact mul_le_one₀ (by linarith) h0 h1

theorem unavailAux_eq_slaProd (cat : Catalog) (nodes : List GNode) :
    ∀ (ids : List String) (u : ℚ),
      unavailAux cat nodes u ids = u * slaProd cat nodes ids
  | [], u => by simp only [unavailAux, slaProd]; ring
  | nid :: rest, u => by
    simp only [unavailAux, slaProd, slaOf]
    cases hn : findNode nodes nid with
    | none =>
      dsimp only
      rw [unavailAux_eq_slaProd cat nodes rest u]
      ring
    | some n =>
      dsimp only
      cases hd : catFind cat n.data.componentType with
      | none =>
        dsimp only
        rw [unavailAux_eq_slaProd cat nodes rest u]
        ring
      | some d =>
        dsimp only
        rw [unavailAux_eq_slaProd cat nodes rest (u * (1 - d.availabilitySLA))]
        ring

/-- C5 amended: for a NON-EMPTY graph (the empty graph returns 0, the
subject of the counterexample) whose catalog SLAs lie in [0, 1], the
availability lies in [0, 0.99999]; it is exactly 0.99999 with zero SPOFs,
and with SPOFs present it is `min 0.99999 (1 − ∏ (1 − SLA))` over the
SPOF list. -/
theorem C5_availability_formula (cat : Catalog) (nodes : List GNode)
    (edges : List GEdge) (t : ℚ) (hne : nodes ≠ [])
    (hsla : ∀ p ∈ cat, 0 ≤ p.2.availabilitySLA ∧ p.2.availabilitySLA ≤ 1) :
    (0 ≤ (computeMetrics cat nodes edges t).availability ∧
      (computeMetrics cat nodes edges t).availability ≤ 99999/100000) ∧
    ((analyzeTopology cat nodes edges).spofNodeIds = [] →
      (computeMetrics cat nodes edges t).availability = 99999/100000) ∧
    ((analyzeTopology cat nodes edges).spofNodeIds ≠ [] →
      (computeMetrics cat nodes edges t).availability
        = min (99999/100000 : ℚ)
            (1 - slaProd cat nodes (analyzeTopology cat nodes edges).spofNodeIds)) := by
  rw [computeMetrics_availability]
  simp only [computeAvailability]
  have hne' : ¬ nodes.isEmpty = true := by
    cases nodes with
    | nil => exact absurd rfl hne
    | cons a l => simp
  rw [if_neg hne']
  cases hsp : (analyzeTopology cat nodes edges).spofNodeIds with
  | nil =>
    simp only [List.isEmpty_nil, if_true, ite_true]
    refine ⟨⟨by norm_num, le_refl _⟩, ?_, ?_⟩
    · intro h
      trivial
    · intro h
      exact absurd rfl h
  | cons a l =>
    simp only [List.isEmpty_cons, Bool.false_eq_true, if_false, ite_false]
    rw [unavailAux_eq_slaProd cat nodes (a :: l) 1, one_mul]
    rcases slaProd_bounds cat nodes hsla (a :: l) with ⟨h0, h1⟩
    refine ⟨⟨?_, ?_⟩, ?_, fun _ => rfl⟩
    · exact le_min (by norm_num) (by linarith)
    · exact min_le_left _ _
    · intro h
      exact absurd h (List.cons_ne_nil a l)

/-- Witness for C5: the SPOF-free two-replicated-servers graph has
availability exactly 0.99999. -/
theorem C5_availability_formula_witness :
    c5aNodes ≠ [] ∧
    (analyzeTopology exCatalog c5aNodes []).spofNodeIds = [] ∧
    (computeMetrics exCatalog c5aNodes [] 100).availability = 99999/100000 := by
  have hne : c5aNodes ≠ [] := by simp [c5aNodes]
  have hsla : ∀ p ∈ exCatalog, 0 ≤ p.2.availabilitySLA ∧ p.2.availabilitySLA ≤ 1 := by
    intro p hp
    simp only [exCatalog, List.mem_cons, List.not_mem_nil, or_false] at hp
    rcases hp with h | h | h | h <;> subst h <;> constructor <;> norm_num
  have hsp : (analyzeTopology exCatalog c5aNodes []).spofNodeIds = [] := by
    simp only [analyzeTopology_spofNodeIds, findSPOFs, spofRule1, spofRule2,
      catSkipSPOF, disconnects, srcDisconnects, sinkLost, bfsReach, bfsAux,
      bfsFuel, bfsAdj, remAdj, sourceIds, sinkIds, hasEdgeInto, hasEdgeFrom,
      adjG, outTargets, findCriticalPath, dfsSources, dfsCrit, dfsKids,
      dfsFuel, getNodeLatency, catFind, findNode, filterNotMem, elemStr,
      dedupFirst, dedupFirstAux, idsOf, exCatalog, mkNode, c5aNodes,
      String.reduceEq, reduceIte, reduceCtorEq, if_true, if_false, ite_true,
      ite_false, List.isEmpty_cons, List.isEmpty_nil, List.length_cons,
      List.length_nil, List.cons_append, List.nil_append]
    norm_num
  exact ⟨hne, hsp,
    (C5_availability_formula exCatalog c5aNodes [] 100 hne hsla).2.1 hsp⟩

/- ────────────────────────────────────────────────────────────────────
   Unknown-kind skipping (claim C6).
   ──────────────────────────────────────────────────────────────────── -/

theorem costAux_unknown_skip (cat : Catalog) (x : GNode)
    (hx : catFind cat x.data.componentType = none) :
    ∀ (pre post : List GNode) (total : ℚ),
      costAux cat total (pre ++ x :: post) = costAux cat total (pre ++ post)
  | [], post, total => by
    simp only [List.nil_append, costAux, hx]
  | n :: pre, post, total => by
    simp only [List.cons_append, costAux]
    cases hd : catFind cat n.data.componentType with
    | none =>
      dsimp only
      exact costAux_unknown_skip cat x hx pre post total
    | some d =>
      dsimp only
      exact costAux_unknown_skip cat x hx pre post _

/-- C6 amended: a node of unknown kind contributes nothing to the monthly
cost (removing it changes nothing), is skipped by the capacity minimum
and by the critical-path base-latency sum — but `getNodeLatency` defaults
it to 10 ms rather than skipping it, so the DFS path latency (the
counterexample's `criticalPathLatency`) does count it. -/
theorem C6_unknown_kind_skips (cat : Catalog) :
    (∀ (x : GNode) (pre post : List GNode),
      catFind cat x.data.componentType = none →
      computeMonthlyCost cat (pre ++ x :: post) = computeMonthlyCost cat (pre ++ post)) ∧
    (∀ (nodes : List GNode) (nid : String) (n : GNode) (mc : Option ℚ)
        (rest : List String),
      findNode nodes nid = some n → catFind cat n.data.componentType = none →
      minCapAux cat nodes mc (nid :: rest) = minCapAux cat nodes mc rest) ∧
    (∀ (nodes : List GNode) (nid : String) (n : GNode) (tot : ℚ)
        (rest : List String),
      findNode nodes nid = some n → catFind cat n.data.componentType = none →
      latencySumAux cat nodes tot (nid :: rest) = latencySumAux cat nodes tot rest) ∧
    (∀ x : GNode, catFind cat x.data.componentType = none →
      getNodeLatency cat x = 10) := by
  refine ⟨?_, ?_, ?_, ?_⟩
  · intro x pre post hx
    simp only [computeMonthlyCost]
    exact costAux_unknown_skip cat x hx pre post 0
  · intro nodes nid n mc rest hn hx
    simp only [minCapAux, hn, hx]
  · intro nodes nid n tot rest hn hx
    simp only [latencySumAux, hn, hx]
  · intro x hx
    simp only [getNodeLatency, hx]

/- ────────────────────────────────────────────────────────────────────
   Lemmas about `propagateLoad` (claims C8 and C9).
   ──────────────────────────────────────────────────────────────────── -/

theorem mapHasKey_append (k : String) :
    ∀ (m m2 : QMap), mapHasKey (m ++ m2) k = (mapHasKey m k || mapHasKey m2 k)
  | [], m2 => by simp only [List.nil_append, mapHasKey, Bool.false_or]
  | p :: ps, m2 => by
    simp only [List.cons_append, List.append_eq, mapHasKey]
    by_cases h : p.1 = k
    · rw [if_pos h, if_pos h, Bool.true_or]
    · rw [if_neg h, if_neg h, mapHasKey_append k ps m2]

theorem mapGet_append_hasKey (k : String) :
    ∀ (m m2 : QMap), mapHasKey m k = true → mapGet (m ++ m2) k = mapGet m k
  | [], m2 => by
    intro hk
    simp only [mapHasKey] at hk
    cases hk
  | p :: ps, m2 => by
    intro hk
    simp only [mapHasKey] at hk
    simp only [List.cons_append, mapGet]
    by_cases h : p.1 = k
    · rw [if_pos h, if_pos h]
    · rw [if_neg h, if_neg h]
      rw [if_neg h] at hk
      exact mapGet_append_hasKey k ps m2 hk

theorem mapGet_append_notKey (k : String) :
    ∀ (m m2 : QMap), mapHasKey m k = false → mapGet (m ++ m2) k = mapGet m2 k
  | [], m2 => by intro _; simp only [List.nil_append]
  | p :: ps, m2 => by
    intro hk
    simp only [mapHasKey] at hk
    simp only [List.cons_append, mapGet]
    by_cases h : p.1 = k
    · rw [if_pos h] at hk
      cases hk
    · rw [if_neg h] at hk
      rw [if_neg h]
      exact mapGet_append_notKey k ps m2 hk

theorem fillZeros_get_hasKey (k : String) :
    ∀ (ns : List GNode) (m : QMap), mapHasKey m k = true →
      mapGet (fillZeros ns m) k = mapGet m k
  | [], m => by intro _; simp only [fillZeros]
  | n :: rest, m => by
    intro hk
    simp only [fillZeros]
    by_cases h : mapHasKey m n.id = true
    · rw [if_pos h]
      exact fillZeros_get_hasKey k rest m hk
    · rw [if_neg h]
      rw [fillZeros_get_hasKey k rest (m ++ [(n.id, 0)])
        (by rw [mapHasKey_append, hk, Bool.true_or])]
      exact mapGet_append_hasKey k m _ hk

theorem fillZeros_get_zero (k : String) :
    ∀ (ns : List GNode) (m : QMap), isNodeId ns k = true →
      mapHasKey m k = false → mapGet (fillZeros ns m) k = 0
  | [], m => by
    intro hid _
    simp only [isNodeId] at hid
    cases hid
  | n :: rest, m => by
    intro hid hk
    simp only [isNodeId] at hid
    simp only [fillZeros]
    by_cases h : n.id = k
    · subst h
      rw [if_neg (by rw [hk]; exact Bool.false_ne_true)]
      have hget : mapGet (m ++ [(n.id, 0)]) n.id = 0 := by
        rw [mapGet_append_notKey n.id m _ hk]
        simp
      have hkey : mapHasKey (m ++ [(n.id, 0)]) n.id = true := by
        rw [mapHasKey_append, hk, Bool.false_or]
        simp
      rw [fillZeros_get_hasKey n.id rest _ hkey, hget]
    · rw [if_neg h] at hid
      by_cases hm : mapHasKey m n.id = true
      · rw [if_pos hm]
        exact fillZeros_get_zero k rest m hid hk
      · rw [if_neg hm]
        refine fillZeros_get_zero k rest _ hid ?_
        rw [mapHasKey_append, hk, Bool.false_or]
        simp only [mapHasKey]
        rw [if_neg h]

theorem outTargets_not_mem (nid : String) :
    ∀ edges : List GEdge, hasEdgeInto edges nid = false →
      ∀ x, nid ∉ outTargets edges x
  | [] => by
    intro _ x hmem
    simp only [outTargets] at hmem
    cases hmem
  | e :: es => by
    intro hin x hmem
    simp only [hasEdgeInto] at hin
    by_cases ht : e.target = nid
    · rw [if_pos ht] at hin
      cases hin
    · rw [if_neg ht] at hin
      simp only [outTargets] at hmem
      by_cases hs : e.source = x
      · rw [if_pos hs] at hmem
        rcases List.mem_cons.mp hmem with he | hm
        · exact ht he.symm
        · exact outTargets_not_mem nid es hin x hm
      · rw [if_neg hs] at hmem
        exact outTargets_not_mem nid es hin x hmem

theorem adjS_not_mem (nid : String) (nodes : List GNode) (edges : List GEdge)
    (h : hasEdgeInto edges nid = false) (x : String) :
    nid ∉ adjS nodes edges x := by
  simp only [adjS]
  by_cases hn : isNodeId nodes x = true
  · rw [if_pos hn]
    exact outTargets_not_mem nid edges h x
  · rw [if_neg hn]
    exact List.not_mem_nil nid

theorem addShares_get_notmem (nid : String) (per : ℚ) :
    ∀ (ys : List String) (m : QMap), nid ∉ ys →
      mapGet (addShares per ys m) nid = mapGet m nid
  | [], m => by intro _; simp only [addShares]
  | y :: ys, m => by
    intro hnm
    simp only [addShares]
    rw [addShares_get_notmem nid per ys _
      (fun h => hnm (List.mem_cons_of_mem y h))]
    rw [mapGet_mapSet]
    rw [if_neg (fun h : nid = y =>
      hnm (by rw [h]; exact List.mem_cons_self y ys))]

theorem addShares_hasKey_mono (nid : String) (per : ℚ) :
    ∀ (ys : List String) (m : QMap), mapHasKey m nid = true →
      mapHasKey (addShares per ys m) nid = true
  | [], m => by intro hk; simp only [addShares]; exact hk
  | y :: ys, m => by
    intro hk
    simp only [addShares]
    apply addShares_hasKey_mono nid per ys
    rw [mapHasKey_mapSet]
    by_cases h : nid = y
    · rw [if_pos h]
    · rw [if_neg h]
      exact hk

theorem propAux_get_preserved (nodes : List GNode) (edges : List GEdge)
    (nid : String) (hin : hasEdgeInto edges nid = false) :
    ∀ (fuel : Nat) (q visited : List String) (m : QMap)
      (vis' : List String) (m' : QMap),
      propAux nodes edges fuel q visited m = some (vis', m') →
      mapGet m' nid = mapGet m nid := by
  intro fuel
  induction fuel with
  | zero =>
    intro q visited m vis' m' h
    cases q with
    | nil =>
      simp only [propAux, Option.some.injEq, Prod.mk.injEq] at h
      rw [← h.2]
    | cons x q =>
      simp only [propAux] at h
      cases h
  | succ fuel ih =>
    intro q visited m vis' m' h
    cases q with
    | nil =>
      simp only [propAux, Option.some.injEq, Prod.mk.injEq] at h
      rw [← h.2]
    | cons x q =>
      simp only [propAux] at h
      by_cases hv : elemStr x visited = true
      · rw [if_pos hv] at h
        exact ih q visited m vis' m' h
      · rw [if_neg hv] at h
        by_cases hns : (adjS nodes edges x).isEmpty = true
        · rw [if_pos hns] at h
          exact ih q (visited ++ [x]) m vis' m' h
        · rw [if_neg hns] at h
          rw [ih _ _ _ vis' m' h]
          exact addShares_get_notmem nid _ (adjS nodes edges x) m
            (adjS_not_mem nid nodes edges hin x)

theorem propAux_hasKey_mono (nodes : List GNode) (edges : List GEdge)
    (nid : String) :
    ∀ (fuel : Nat) (q visited : List String) (m : QMap)
      (vis' : List String) (m' : QMap),
      mapHasKey m nid = true →
      propAux nodes edges fuel q visited m = some (vis', m') →
      mapHasKey m' nid = true := by
  intro fuel
  induction fuel with
  | zero =>
    intro q visited m vis' m' hk h
    cases q with
    | nil =>
      simp only [propAux, Option.some.injEq, Prod.mk.injEq] at h
      rw [← h.2]
      exact hk
    | cons x q =>
      simp only [propAux] at h
      cases h
  | succ fuel ih =>
    intro q visited m vis' m' hk h
    cases q with
    | nil =>
      simp only [propAux, Option.some.injEq, Prod.mk.injEq] at h
      rw [← h.2]
      exact hk
    | cons x q =>
      simp only [propAux] at h
      by_cases hv : elemStr x visited = true
      · rw [if_pos hv] at h
        exact ih q visited m vis' m' hk h
      · rw [if_neg hv] at h
        by_cases hns : (adjS nodes edges x).isEmpty = true
        · rw [if_pos hns] at h
          exact ih q (visited ++ [x]) m vis' m' hk h
        · rw [if_neg hns] at h
          exact ih _ _ _ vis' m'
            (addShares_hasKey_mono nid _ (adjS nodes edges x) m hk) h

theorem initLoads_get_notmem (nid : String) (per : ℚ) :
    ∀ (srcs : List GNode) (m : QMap), nid ∉ idsOf srcs →
      mapGet (initLoads per srcs m) nid = mapGet m nid
  | [], m => by intro _; simp only [initLoads]
  | s :: srcs, m => by
    intro hnm
    simp only [initLoads]
    rw [initLoads_get_notmem nid per srcs _ (fun h => hnm
      (by simp only [idsOf, List.mem_cons]; exact Or.inr h))]
    rw [mapGet_mapSet, if_neg (fun h : nid = s.id => hnm
      (by simp only [idsOf, List.mem_cons]; exact Or.inl h))]

theorem initLoads_get_mem (nid : String) (per : ℚ) :
    ∀ (srcs : List GNode) (m : QMap), nid ∈ idsOf srcs →
      mapGet (initLoads per srcs m) nid = per
  | [], m => by
    intro h
    simp only [idsOf] at h
    cases h
  | s :: srcs, m => by
    intro hm
    simp only [initLoads]
    by_cases h : nid ∈ idsOf srcs
    · exact initLoads_get_mem nid per srcs _ h
    · have he : nid = s.id := by
        simp only [idsOf, List.mem_cons] at hm
        rcases hm with he | hmem
        · exact he
        · exact absurd hmem h
      rw [initLoads_get_notmem nid per srcs _ h, mapGet_mapSet, if_pos he]

theorem initLoads_hasKey_mono (nid : String) (per : ℚ) :
    ∀ (srcs : List GNode) (m : QMap), mapHasKey m nid = true →
      mapHasKey (initLoads per srcs m) nid = true
  | [], m => by intro hk; simp only [initLoads]; exact hk
  | s :: srcs, m => by
    intro hk
    simp only [initLoads]
    apply initLoads_hasKey_mono nid per srcs
    rw [mapHasKey_mapSet]
    by_cases h : nid = s.id
    · rw [if_pos h]
    · rw [if_neg h]
      exact hk

theorem initLoads_hasKey_mem (nid : String) (per : ℚ) :
    ∀ (srcs : List GNode) (m : QMap), nid ∈ idsOf srcs →
      mapHasKey (initLoads per srcs m) nid = true
  | [], m => by
    intro h
    simp only [idsOf] at h
    cases h
  | s :: srcs, m => by
    intro hm
    simp only [initLoads]
    by_cases h : nid ∈ idsOf srcs
    · exact initLoads_hasKey_mem nid per srcs _ h
    · have he : nid = s.id := by
        simp only [idsOf, List.mem_cons] at hm
        rcases hm with he | hmem
        · exact he
        · exact absurd hmem h
      apply initLoads_hasKey_mono
      rw [mapHasKey_mapSet, if_pos he]

theorem mem_propSources (nid : String) (edges : List GEdge) :
    ∀ nodes : List GNode, nid ∈ idsOf (propSources edges nodes) →
      inDeg edges nid = 0
  | [] => by
    intro h
    simp only [propSources, idsOf] at h
    cases h
  | n :: rest => by
    intro h
    simp only [propSources] at h
    by_cases hd : inDeg edges n.id = 0
    · rw [if_pos hd] at h
      simp only [idsOf, List.mem_cons] at h
      rcases h with he | hm
      · rw [he]
        exact hd
      · exact mem_propSources nid edges rest hm
    · rw [if_neg hd] at h
      exact mem_propSources nid edges rest h

theorem inDeg_zero_hasEdgeInto (nid : String) :
    ∀ edges : List GEdge, inDeg edges nid = 0 → hasEdgeInto edges nid = false
  | [] => by intro _; simp only [hasEdgeInto]
  | e :: es => by
    intro h
    simp only [inDeg] at h
    simp only [hasEdgeInto]
    by_cases ht : e.target = nid
    · rw [if_pos ht] at h
      omega
    · rw [if_neg ht] at h
      rw [if_neg ht]
      exact inDeg_zero_hasEdgeInto nid es h

theorem filterNotMem_nil_seen : ∀ l : List String, filterNotMem [] l = l
  | [] => rfl
  | y :: ys => by
    simp only [filterNotMem, elemStr]
    rw [if_neg (by exact Bool.false_ne_true), filterNotMem_nil_seen ys]

theorem filterNotMem_append_one (u : String) (vis : List String) :
    ∀ l : List String,
      filterNotMem (vis ++ [u]) l = filterNotMem [u] (filterNotMem vis l)
  | [] => rfl
  | y :: ys => by
    simp only [filterNotMem]
    by_cases hv : elemStr y vis = true
    · have hm : elemStr y (vis ++ [u]) = true := by
        rw [elemStr_iff] at hv ⊢
        exact List.mem_append_left _ hv
      rw [if_pos hm, if_pos hv]
      exact filterNotMem_append_one u vis ys
    · by_cases hu : y = u
      · have hm : elemStr y (vis ++ [u]) = true := by
          rw [elemStr_iff]
          refine List.mem_append_right _ ?_
          rw [hu]
          exact List.mem_singleton_self u

        rw [if_pos hm, if_neg hv]
        simp only [filterNotMem]
        rw [if_pos (by rw [elemStr_iff, hu]; exact List.mem_singleton_self u)]
        exact filterNotMem_append_one u vis ys
      · have hm : elemStr y (vis ++ [u]) = false := by
          rw [elemStr_false_iff]
          intro hmem
          rcases List.mem_append.mp hmem with h1 | h2
          · exact hv ((elemStr_iff y vis).mpr h1)
          · exact hu (List.mem_singleton.mp h2)
        rw [if_neg (by rw [hm]; exact Bool.false_ne_true), if_neg hv]
        simp only [filterNotMem]
        rw [if_neg (fun hh => hu (List.mem_singleton.mp ((elemStr_iff y [u]).mp hh)))]
        rw [filterNotMem_append_one u vis ys]

theorem filterNotMem_sublist (seen : List String) :
    ∀ l : List String, (filterNotMem seen l).Sublist l
  | [] => List.Sublist.refl []
  | y :: ys => by
    simp only [filterNotMem]
    by_cases h : elemStr y seen = true
    · rw [if_pos h]
      exact (filterNotMem_sublist seen ys).cons y
    · rw [if_neg h]
      exact (filterNotMem_sublist seen ys).cons₂ y

theorem mem_filterNotMem (x : String) (seen : List String) :
    ∀ l : List String, x ∈ l → elemStr x seen = false →
      x ∈ filterNotMem seen l
  | [] => by intro h _; cases h
  | y :: ys => by
    intro hm hs
    simp only [filterNotMem]
    rcases List.mem_cons.mp hm with he | hmem
    · subst he
      rw [if_neg (by rw [hs]; exact Bool.false_ne_true)]
      exact List.mem_cons_self x _
    · by_cases h : elemStr y seen = true
      · rw [if_pos h]
        exact mem_filterNotMem x seen ys hmem hs
      · rw [if_neg h]
        exact List.mem_cons_of_mem y (mem_filterNotMem x seen ys hmem hs)

theorem filterNotMem_single_notmem (u : String) :
    ∀ l : List String, u ∉ l → filterNotMem [u] l = l
  | [] => fun _ => rfl
  | y :: ys => by
    intro h
    have hyu : ¬ elemStr y [u] = true := by
      intro hh
      have he : y = u := List.mem_singleton.mp ((elemStr_iff y [u]).mp hh)
      exact h (by rw [← he]; exact List.mem_cons_self y ys)
    simp only [filterNotMem]
    rw [if_neg hyu,
      filterNotMem_single_notmem u ys (fun hh => h (List.mem_cons_of_mem y hh))]

theorem sumAdjLens_remove (nodes : List GNode) (edges : List GEdge) (u : String) :
    ∀ l : List String, l.Nodup → u ∈ l →
      sumAdjLens nodes edges l
        = (adjS nodes edges u).length + sumAdjLens nodes edges (filterNotMem [u] l)
  | [] => by intro _ h; cases h
  | y :: ys => by
    intro hnd hm
    simp only [sumAdjLens, filterNotMem]
    rcases List.mem_cons.mp hm with he | hmem
    · subst he
      have hnotin : u ∉ ys := (List.nodup_cons.mp hnd).1
      rw [if_pos (by rw [elemStr_iff]; exact List.mem_singleton_self u)]
      rw [filterNotMem_single_notmem u ys hnotin]
    · have hyu : y ≠ u := by
        intro he2
        have hun : u ∉ ys := by
          rw [← he2]
          exact (List.nodup_cons.mp hnd).1
        exact hun hmem
      rw [if_neg (fun hh => hyu (List.mem_singleton.mp ((elemStr_iff y [u]).mp hh)))]
      simp only [sumAdjLens]
      rw [sumAdjLens_remove nodes edges u ys (List.nodup_cons.mp hnd).2 hmem]
      omega

theorem sumAdjLens_filter_le (nodes : List GNode) (edges : List GEdge)
    (seen : List String) :
    ∀ l : List String,
      sumAdjLens nodes edges (filterNotMem seen l) ≤ sumAdjLens nodes edges l
  | [] => le_refl _
  | y :: ys => by
    simp only [filterNotMem, sumAdjLens]
    by_cases h : elemStr y seen = true
    · rw [if_pos h]
      exact le_trans (sumAdjLens_filter_le nodes edges seen ys)
        (Nat.le_add_left _ _)
    · rw [if_neg h]
      simp only [sumAdjLens]
      exact Nat.add_le_add_left (sumAdjLens_filter_le nodes edges seen ys) _

theorem sumAdjLens_filter_append_le (nodes : List GNode) (edges : List GEdge)
    (u : String) (vis : List String) (l : List String) :
    sumAdjLens nodes edges (filterNotMem (vis ++ [u]) l)
      ≤ sumAdjLens nodes edges (filterNotMem vis l) := by
  rw [filterNotMem_append_one]
  exact sumAdjLens_filter_le nodes edges [u] (filterNotMem vis l)

theorem dedupFirstAux_nodup :
    ∀ (l acc : List String), acc.Nodup → (dedupFirstAux acc l).Nodup
  | [], acc => fun h => h
  | y :: ys, acc => by
    intro h
    simp only [dedupFirstAux]
    by_cases hy : elemStr y acc = true
    · rw [if_pos hy]
      exact dedupFirstAux_nodup ys acc h
    · rw [if_neg hy]
      refine dedupFirstAux_nodup ys (acc ++ [y]) ?_
      rw [List.nodup_append]
      refine ⟨h, List.nodup_singleton y, ?_⟩
      intro a ha hb
      have he : a = y := List.mem_singleton.mp hb
      subst he
      exact hy ((elemStr_iff a acc).mpr ha)

theorem dedupFirst_nodup (l : List String) : (dedupFirst l).Nodup :=
  dedupFirstAux_nodup l [] List.nodup_nil

theorem isNodeId_mem_idsOf (x : String) :
    ∀ nodes : List GNode, isNodeId nodes x = true → x ∈ idsOf nodes
  | [] => by
    intro h
    simp only [isNodeId] at h
    cases h
  | n :: rest => by
    intro h
    simp only [isNodeId] at h
    simp only [idsOf]
    by_cases he : n.id = x
    · exact List.mem_cons.mpr (Or.inl he.symm)
    · rw [if_neg he] at h
      exact List.mem_cons_of_mem _ (isNodeId_mem_idsOf x rest h)

theorem idsOf_length : ∀ nodes : List GNode, (idsOf nodes).length = nodes.length
  | [] => rfl
  | n :: rest => by
    simp only [idsOf, List.length_cons, idsOf_length rest]

theorem propAux_total (nodes : List GNode) (edges : List GEdge) :
    ∀ (fuel : Nat) (q visited : List String) (m : QMap),
      q.length + sumAdjLens nodes edges
          (filterNotMem visited (dedupFirst (idsOf nodes))) < fuel →
      ∃ vis' m', propAux nodes edges fuel q visited m = some (vis', m') := by
  intro fuel
  induction fuel with
  | zero =>
    intro q visited m h
    omega
  | succ fuel ih =>
    intro q visited m h
    cases q with
    | nil => exact ⟨visited, m, rfl⟩
    | cons x q =>
      by_cases hv : elemStr x visited = true
      · have step : propAux nodes edges (fuel + 1) (x :: q) visited m
            = propAux nodes edges fuel q visited m := by
          simp only [propAux, if_pos hv]
        rw [step]
        apply ih
        simp only [List.length_cons] at h
        omega
      · by_cases hns : (adjS nodes edges x).isEmpty = true
        · have step : propAux nodes edges (fuel + 1) (x :: q) visited m
              = propAux nodes edges fuel q (visited ++ [x]) m := by
            simp only [propAux, if_neg hv, if_pos hns]
          rw [step]
          apply ih
          have hle := sumAdjLens_filter_append_le nodes edges x visited
            (dedupFirst (idsOf nodes))
          simp only [List.length_cons] at h
          omega
        · have step : propAux nodes edges (fuel + 1) (x :: q) visited m
              = propAux nodes edges fuel (q ++ adjS nodes edges x)
                  (visited ++ [x])
                  (addShares (mapGet m x / ((adjS nodes edges x).length : ℚ))
                    (adjS nodes edges x) m) := by
            simp only [propAux, if_neg hv, if_neg hns]
          rw [step]
          apply ih
          have hx_node : isNodeId nodes x = true := by
            by_contra hc
            have hadj : adjS nodes edges x = [] := by
              simp only [adjS]
              rw [if_neg hc]
            rw [hadj] at hns
            exact hns rfl
          have hxD : x ∈ dedupFirst (idsOf nodes) :=
            (mem_dedupFirst x _).mpr (isNodeId_mem_idsOf x nodes hx_node)
          have hxF : x ∈ filterNotMem visited (dedupFirst (idsOf nodes)) :=
            mem_filterNotMem x visited _ hxD (bool_eq_false hv)
          have hnd : (filterNotMem visited (dedupFirst (idsOf nodes))).Nodup :=
            List.Nodup.sublist (filterNotMem_sublist visited _)
              (dedupFirst_nodup _)
          have hrem := sumAdjLens_remove nodes edges x _ hnd hxF
          rw [filterNotMem_append_one]
          simp only [List.length_append, List.length_cons] at h ⊢
          omega

theorem propAux_nodup (nodes : List GNode) (edges : List GEdge) :
    ∀ (fuel : Nat) (q visited : List String) (m : QMap)
      (vis' : List String) (m' : QMap), visited.Nodup →
      propAux nodes edges fuel q visited m = some (vis', m') → vis'.Nodup := by
  intro fuel
  induction fuel with
  | zero =>
    intro q visited m vis' m' hnd h
    cases q with
    | nil =>
      simp only [propAux, Option.some.injEq, Prod.mk.injEq] at h
      rw [← h.1]
      exact hnd
    | cons x q =>
      simp only [propAux] at h
      cases h
  | succ fuel ih =>
    intro q visited m vis' m' hnd h
    cases q with
    | nil =>
      simp only [propAux, Option.some.injEq, Prod.mk.injEq] at h
      rw [← h.1]
      exact hnd
    | cons x q =>
      simp only [propAux] at h
      by_cases hv : elemStr x visited = true
      · rw [if_pos hv] at h
        exact ih q visited m vis' m' hnd h
      · rw [if_neg hv] at h
        have hnd' : (visited ++ [x]).Nodup := by
          rw [List.nodup_append]
          refine ⟨hnd, List.nodup_singleton x, ?_⟩
          intro a ha hb
          have he : a = x := List.mem_singleton.mp hb
          subst he
          exact hv ((elemStr_iff a visited).mpr ha)
        by_cases hns : (adjS nodes edges x).isEmpty = true
        · rw [if_pos hns] at h
          exact ih q (visited ++ [x]) m vis' m' hnd' h
        · rw [if_neg hns] at h
          exact ih (q ++ adjS nodes edges x) (visited ++ [x]) _ vis' m' hnd' h

theorem propagateLoadRun_total (nodes : List GNode) (edges : List GEdge) (t : ℚ) :
    ∃ vis m, propagateLoadRun nodes edges t = some (vis, m) := by
  simp only [propagateLoadRun]
  apply propAux_total
  rw [filterNotMem_nil_seen]
  simp only [propFuel]
  rw [idsOf_length]
  omega

/-- C9: for every finite graph (cycles included) the load propagator's
BFS loop terminates — `propagateLoadRun` returns a result within the
chosen fuel — and forwards load out of each node at most once: the
first-visit list it returns has no duplicates, and dequeuing an
already-visited node is a skip that touches neither the map nor the
visited set. -/
theorem C9_terminates_visits_once (nodes : List GNode) (edges : List GEdge)
    (t : ℚ) :
    (∃ vis m, propagateLoadRun nodes edges t = some (vis, m) ∧ vis.Nodup) ∧
    (∀ (fuel : Nat) (u : String) (q visited : List String) (m : QMap),
      elemStr u visited = true →
      propAux nodes edges (fuel + 1) (u :: q) visited m
        = propAux nodes edges fuel q visited m) := by
  constructor
  · obtain ⟨vis, m, hrun⟩ := propagateLoadRun_total nodes edges t
    refine ⟨vis, m, hrun, ?_⟩
    have hrun' : propAux nodes edges (propFuel nodes edges)
        (idsOf (propSources edges nodes)) []
        (initLoads (if (propSources edges nodes).isEmpty then 0
            else t / ((propSources edges nodes).length : ℚ))
          (propSources edges nodes) []) = some (vis, m) := by
      simpa only [propagateLoadRun] using hrun
    exact propAux_nodup nodes edges _ _ [] _ vis m List.nodup_nil hrun'
  · intro fuel u q visited m hv
    simp only [propAux, if_pos hv]

/-- C8: `propagateLoad` splits the traffic evenly across the source
nodes (each source's final load is trafficLoad / #sources), divides a
processed node's accumulated load evenly across its outgoing neighbors
(each neighbor key gains one equal share per occurrence in the adjacency
entry), assigns 0 to every node the traversal never reaches, and on the
spec's concrete examples: the chain A→B→C gives every node the full
load, and the 1000-load two-edge fan-out gives each sibling leaf 500. -/
theorem C8_even_split_and_zero_fill (nodes : List GNode) (edges : List GEdge)
    (t : ℚ) :
    (∀ nid, nid ∈ idsOf (propSources edges nodes) →
      propagateLoad nodes edges t nid
        = t / ((propSources edges nodes).length : ℚ)) ∧
    (∀ (per : ℚ) (ys : List String) (m : QMap) (k : String),
      mapGet (addShares per ys m) k
        = mapGet m k + (countStr k ys : ℚ) * per) ∧
    (∀ (fuel : Nat) (u : String) (q visited : List String) (m : QMap),
      elemStr u visited = false → (adjS nodes edges u).isEmpty = false →
      propAux nodes edges (fuel + 1) (u :: q) visited m
        = propAux nodes edges fuel (q ++ adjS nodes edges u) (visited ++ [u])
            (addShares (mapGet m u / ((adjS nodes edges u).length : ℚ))
              (adjS nodes edges u) m)) ∧
    (∀ nid vis m', isNodeId nodes nid = true →
      propagateLoadRun nodes edges t = some (vis, m') →
      mapHasKey m' nid = false →
      propagateLoad nodes edges t nid = 0) ∧
    (propagateLoad chainNodes chainEdges t "A" = t ∧
      propagateLoad chainNodes chainEdges t "B" = t ∧
      propagateLoad chainNodes chainEdges t "C" = t) ∧
    (propagateLoad fanNodes fanEdges 1000 "L1" = 500 ∧
      propagateLoad fanNodes fanEdges 1000 "L2" = 500) := by
  refine ⟨?_, ?_, ?_, ?_, ?_, ?_⟩
  · intro nid hmem
    have hin0 : inDeg edges nid = 0 := mem_propSources nid edges nodes hmem
    have hnoin : hasEdgeInto edges nid = false :=
      inDeg_zero_hasEdgeInto nid edges hin0
    have hsrc_ne : ¬ (propSources edges nodes).isEmpty = true := by
      cases hsv : propSources edges nodes with
      | nil =>
        rw [hsv] at hmem
        simp only [idsOf] at hmem
        cases hmem
      | cons a l => simp
    obtain ⟨vis, m', hrun⟩ := propagateLoadRun_total nodes edges t
    have hrun' : propAux nodes edges (propFuel nodes edges)
        (idsOf (propSources edges nodes)) []
        (initLoads (if (propSources edges nodes).isEmpty then 0
            else t / ((propSources edges nodes).length : ℚ))
          (propSources edges nodes) []) = some (vis, m') := by
      simpa only [propagateLoadRun] using hrun
    have hkey0 := initLoads_hasKey_mem nid
      (if (propSources edges nodes).isEmpty then 0
        else t / ((propSources edges nodes).length : ℚ))
      (propSources edges nodes) [] hmem
    have hkey' := propAux_hasKey_mono nodes edges nid _ _ _ _ vis m' hkey0 hrun'
    have hget := propAux_get_preserved nodes edges nid hnoin _ _ _ _ vis m' hrun'
    have hinit := initLoads_get_mem nid
      (if (propSources edges nodes).isEmpty then 0
        else t / ((propSources edges nodes).length : ℚ))
      (propSources edges nodes) [] hmem
    simp only [propagateLoad, propagateLoadMap, hrun]
    rw [fillZeros_get_hasKey nid nodes m' hkey', hget, hinit, if_neg hsrc_ne]
  · intro per ys
    induction ys with
    | nil =>
      intro m k
      simp only [addShares, countStr]
      push_cast
      ring
    | cons y ys ih =>
      intro m k
      simp only [addShares, countStr]
      by_cases h : k = y
      · subst h
        rw [ih, mapGet_mapSet, if_pos rfl, if_pos rfl]
        push_cast
        ring
      · rw [ih, mapGet_mapSet, if_neg h, if_neg (fun hh : y = k => h hh.symm)]
        push_cast
        ring
  · intro fuel u q visited m hv hns
    have hv' : ¬ elemStr u visited = true := by
      rw [hv]
      exact Bool.false_ne_true
    have hns' : ¬ (adjS nodes edges u).isEmpty = true := by
      rw [hns]
      exact Bool.false_ne_true
    simp only [propAux]
    rw [if_neg hv', if_neg hns']
  · intro nid vis m' hid hrun hkey
    simp only [propagateLoad, propagateLoadMap, hrun]
    exact fillZeros_get_zero nid nodes m' hid hkey
  · refine ⟨?_, ?_, ?_⟩ <;>
    · simp only [propagateLoad, propagateLoadMap, propagateLoadRun, propAux,
        propFuel, propSources, sumAdjLens, fillZeros, mapHasKey, adjS,
        isNodeId, outTargets, inDeg, mapGet, mapSet, addShares, initLoads,
        idsOf, elemStr, dedupFirst, dedupFirstAux, chainNodes, chainEdges,
        mkNode, String.reduceEq, reduceIte, reduceCtorEq, if_true, if_false,
        ite_true, ite_false, List.isEmpty_cons, List.isEmpty_nil,
        List.length_cons, List.length_nil, List.cons_append, List.nil_append]
      norm_num
  · constructor <;>
    · simp only [propagateLoad, propagateLoadMap, propagateLoadRun, propAux,
        propFuel, propSources, sumAdjLens, fillZeros, mapHasKey, adjS,
        isNodeId, outTargets, inDeg, mapGet, mapSet, addShares, initLoads,
        idsOf, elemStr, dedupFirst, dedupFirstAux, fanNodes, fanEdges,
        mkNode, String.reduceEq, reduceIte, reduceCtorEq, if_true, if_false,
        ite_true, ite_false, List.isEmpty_cons, List.isEmpty_nil,
        List.length_cons, List.length_nil, List.cons_append, List.nil_append]
      norm_num

end SDL
